import Mathlib

/-!
# TextEditorV2.cpp: the `MultiLineTextEditor` class

A shallow embedding of the class `MultiLineTextEditor` of `src/TextEditorV2.cpp`
and the properties of it that the specification states.

Modelling conventions.

* A `std::string` is a `List Char` (`Line`); columns are element offsets.
* `std::list<string>` is a `List Line`.  A list iterator is the index of the
  element it denotes; the index `lines.length` is the past-the-end iterator.
  List iterators are stable, so after `lines.insert(it, x)` the iterator `it`
  still denotes the same element, which now sits one index further on.
* `std::stack<list<string>>` is a `List (List Line)` whose head is the top.
* `cursorRow` and `cursorCol` are 32-bit `int` members, held as integers.  Every
  conversion of a `size_t` to `int` in the source is modelled by `CppInt.toInt`
  (reduction modulo 2^32 into the range of `int`): the `+=` of `insert`, the
  assignment of a length in `moveLeft`, the `(int)` casts of `moveUp`,
  `moveDown`, `undo` and `redo`.  Signed arithmetic on the column and on the
  cast size (`cursorCol++`, `(int)lines.size() - 1`) goes through
  `CppInt.checked`: an overflow is undefined behaviour.  A negative `int`
  converted to `size_t` is modelled as such (`ltSize`, `ltSizePred`, the position
  arguments of the string functions).  The increments of `cursorRow` and of the
  loop counter of `displayText` never pass the number of lines and are taken not
  to overflow: they would only in a buffer of 2^31 lines.
* Every member function returns `Option`: `none` stands for an execution that
  leaves defined behaviour (dereferencing or stepping the past-the-end
  iterator, stepping before `begin()`) or that throws `std::out_of_range`
  (a string position beyond the size).  The result carries the new object state
  and the lines written to `cout`.
-/

/-- A `std::string`: the sequence of its `char` elements. -/
abbrev Line := List Char

/-- What a call writes to `cout`, one entry per `endl`-terminated line. -/
abbrev Output := List Line

namespace CppInt

/-- The conversion of an integer value, such as a `size_t`, to `int`: the value of the
type that is congruent to it modulo 2^32. -/
def toInt (x : Int) : Int := (x + 2147483648) % 4294967296 - 2147483648

/-- The result of an arithmetic operation on `int` operands: the mathematical result
when the type can represent it; otherwise the behaviour is undefined. -/
def checked (x : Int) : Option Int :=
  if -2147483648 ≤ x ∧ x ≤ 2147483647 then some x else none

end CppInt

namespace CppString

/-- The `int < size_t` comparison: the `int` is converted to unsigned, so a negative
value compares above every size. -/
def ltSize (i : Int) (n : Nat) : Bool := decide (0 ≤ i ∧ i < (n : Int))

/-- The comparison `i < n - 1` for an `int` i and a `size_t` n.  When `n = 0` the
right-hand side wraps to `SIZE_MAX`, which only the converted `-1` does not lie below. -/
def ltSizePred (i : Int) (n : Nat) : Bool :=
  if n = 0 then decide (i ≠ -1) else ltSize i (n - 1)

/-- A position argument converted from `int`: in range when `0 ≤ pos ≤ size`; every
other value makes the string member functions throw `std::out_of_range`. -/
def position (l : Line) (pos : Int) : Option Nat :=
  if 0 ≤ pos ∧ pos ≤ (l.length : Int) then some pos.toNat else none

/-- A count argument converted from `int`: a negative value converts to a count larger
than any string. -/
def count (l : Line) (n : Int) : Nat :=
  if n < 0 then l.length else n.toNat

/-- The call `s.insert(pos, text)`. -/
def insert (l : Line) (pos : Int) (text : Line) : Option Line :=
  (position l pos).map fun p => l.take p ++ text ++ l.drop p

/-- The call `s.substr(pos)`. -/
def substr (l : Line) (pos : Int) : Option Line :=
  (position l pos).map fun p => l.drop p

/-- The call `s.substr(pos, n)`. -/
def substrCount (l : Line) (pos : Int) (n : Int) : Option Line :=
  (position l pos).map fun p => (l.drop p).take (count l n)

/-- The call `s.erase(pos)`: everything from `pos` on is removed. -/
def erase (l : Line) (pos : Int) : Option Line :=
  (position l pos).map fun p => l.take p

/-- The call `s.erase(pos, n)`. -/
def eraseCount (l : Line) (pos : Int) (n : Int) : Option Line :=
  (position l pos).map fun p => l.take p ++ l.drop (p + count l n)

end CppString

namespace CppList

/-- The call `std::next(it)`: undefined on the past-the-end iterator. -/
def next (lines : List Line) (it : Nat) : Option Nat :=
  if it < lines.length then some (it + 1) else none

/-- Dereferencing an iterator (`*it`, `it->`): undefined on the past-the-end iterator. -/
def deref (lines : List Line) (it : Nat) : Option Line := lines[it]?

/-- The call `lines.insert(it, x)`: x is placed before the element `it` denotes. -/
def insert (lines : List Line) (it : Nat) (x : Line) : List Line :=
  lines.take it ++ x :: lines.drop it

end CppList

/-- The data members of the class `MultiLineTextEditor`. -/
structure MultiLineTextEditor where
  lines : List Line
  cursorRow : Int
  cursorCol : Int
  undoStack : List (List Line)
  redoStack : List (List Line)
  deriving DecidableEq, Repr

namespace MultiLineTextEditor

/-- The constructor: one empty line, cursor at the origin, empty stacks. -/
def init : MultiLineTextEditor :=
  { lines := [[]], cursorRow := 0, cursorCol := 0, undoStack := [], redoStack := [] }

/-- The member `saveState`. -/
def saveState (s : MultiLineTextEditor) : MultiLineTextEditor :=
  { s with undoStack := s.lines :: s.undoStack, redoStack := [] }

/-- The member `getIterator`: `advance(lines.begin(), row)`. -/
def getIterator (s : MultiLineTextEditor) (row : Int) : Option Nat :=
  if 0 ≤ row ∧ row ≤ (s.lines.length : Int) then some row.toNat else none

/-- The first line `displayText` prints. -/
def header : Line := "------ Text Editor ------".toList

/-- The last line `displayText` prints. -/
def footer : Line := "---------------------------".toList

/-- The message of `deleteChar` at the end of a line. -/
def nothingToDelete : Line := "Nothing to delete at this position!".toList

/-- The loop of `displayText` from the counter value `row` on. -/
def displayRows (cursorRow cursorCol : Int) : List Line → Int → Option (List Line)
  | [], _ => some []
  | line :: rest, row =>
    if row = cursorRow then do
      let left ← CppString.substrCount line 0 cursorCol
      let right ← CppString.substr line cursorCol
      let more ← displayRows cursorRow cursorCol rest (row + 1)
      pure ((left ++ ['|'] ++ right) :: more)
    else do
      let more ← displayRows cursorRow cursorCol rest (row + 1)
      pure (line :: more)

/-- The member `displayText`. -/
def displayText (s : MultiLineTextEditor) : Option Output := do
  let body ← displayRows s.cursorRow s.cursorCol s.lines 0
  pure (header :: body ++ [footer])

/-- The member `insert`. -/
def insert (text : Line) (s : MultiLineTextEditor) : Option (MultiLineTextEditor × Output) := do
  let s := saveState s
  let it ← getIterator s s.cursorRow
  let cur ← CppList.deref s.lines it
  let cur ← CppString.insert cur s.cursorCol text
  let s := { s with lines := s.lines.set it cur,
                    cursorCol := CppInt.toInt (s.cursorCol + (text.length : Int)) }
  let out ← displayText s
  pure (s, out)

/-- The `for` loop of `insertMultipleLines`, on the locals it changes: the list, the
iterator `it` and `cursorRow`.  The value `lines.insert` returns is dropped, so `it`
keeps denoting the element it was stepped to, now one index further on. -/
def insertLoop : List Line → List Line → Nat → Int → Option (List Line × Nat × Int)
  | [], lines, it, row => some (lines, it, row)
  | line :: rest, lines, it, row => do
    let row := row + 1
    let it ← CppList.next lines it
    let lines := CppList.insert lines it line
    insertLoop rest lines (it + 1) row

/-- The member `insertMultipleLines`. -/
def insertMultipleLines (texts : List Line) (s : MultiLineTextEditor) :
    Option (MultiLineTextEditor × Output) := do
  let s := saveState s
  let it ← getIterator s s.cursorRow
  let cur ← CppList.deref s.lines it
  let remainingText ← CppString.substr cur s.cursorCol
  let cur ← CppString.erase cur s.cursorCol
  let (lines, it, row) ← insertLoop texts (s.lines.set it cur) it s.cursorRow
  let row := row + 1
  let it ← CppList.next lines it
  let lines := CppList.insert lines it remainingText
  let s := { s with lines := lines, cursorRow := row, cursorCol := 0 }
  let out ← displayText s
  pure (s, out)

/-- The member `deleteChar`. -/
def deleteChar (s : MultiLineTextEditor) : Option (MultiLineTextEditor × Output) := do
  let it ← getIterator s s.cursorRow
  let cur ← CppList.deref s.lines it
  if CppString.ltSize s.cursorCol cur.length then do
    let s := saveState s
    let cur ← CppString.eraseCount cur s.cursorCol 1
    let s := { s with lines := s.lines.set it cur }
    let out ← displayText s
    pure (s, out)
  else
    pure (s, [nothingToDelete])

/-- The member `moveLeft`. -/
def moveLeft (s : MultiLineTextEditor) : Option (MultiLineTextEditor × Output) := do
  let s ←
    if s.cursorCol > 0 then
      pure { s with cursorCol := s.cursorCol - 1 }
    else if s.cursorRow > 0 then do
      let s := { s with cursorRow := s.cursorRow - 1 }
      let it ← getIterator s s.cursorRow
      let cur ← CppList.deref s.lines it
      pure { s with cursorCol := CppInt.toInt (cur.length : Int) }
    else
      pure s
  let out ← displayText s
  pure (s, out)

/-- The member `moveRight`. -/
def moveRight (s : MultiLineTextEditor) : Option (MultiLineTextEditor × Output) := do
  let it ← getIterator s s.cursorRow
  let cur ← CppList.deref s.lines it
  let s ←
    if CppString.ltSize s.cursorCol cur.length then do
      let col ← CppInt.checked (s.cursorCol + 1)
      pure { s with cursorCol := col }
    else if CppString.ltSizePred s.cursorRow s.lines.length then
      pure { s with cursorRow := s.cursorRow + 1, cursorCol := 0 }
    else
      pure s
  let out ← displayText s
  pure (s, out)

/-- The member `moveUp`. -/
def moveUp (s : MultiLineTextEditor) : Option (MultiLineTextEditor × Output) := do
  let s ←
    if s.cursorRow > 0 then do
      let s := { s with cursorRow := s.cursorRow - 1 }
      let it ← getIterator s s.cursorRow
      let cur ← CppList.deref s.lines it
      pure { s with cursorCol := min s.cursorCol (CppInt.toInt (cur.length : Int)) }
    else
      pure s
  let out ← displayText s
  pure (s, out)

/-- The member `moveDown`. -/
def moveDown (s : MultiLineTextEditor) : Option (MultiLineTextEditor × Output) := do
  let s ←
    if CppString.ltSizePred s.cursorRow s.lines.length then do
      let s := { s with cursorRow := s.cursorRow + 1 }
      let it ← getIterator s s.cursorRow
      let cur ← CppList.deref s.lines it
      pure { s with cursorCol := min s.cursorCol (CppInt.toInt (cur.length : Int)) }
    else
      pure s
  let out ← displayText s
  pure (s, out)

/-- The member `newLine`. -/
def newLine (s : MultiLineTextEditor) : Option (MultiLineTextEditor × Output) := do
  let s := saveState s
  let it ← getIterator s s.cursorRow
  let cur ← CppList.deref s.lines it
  let remainingText ← CppString.substr cur s.cursorCol
  let cur ← CppString.erase cur s.cursorCol
  let lines := s.lines.set it cur
  let row := s.cursorRow + 1
  let it ← CppList.next lines it
  let lines := CppList.insert lines it remainingText
  let s := { s with lines := lines, cursorRow := row, cursorCol := 0 }
  let out ← displayText s
  pure (s, out)

/-- The clamping of the cursor that ends the bodies of `undo` and `redo`. -/
def clampCursor (s : MultiLineTextEditor) : Option MultiLineTextEditor := do
  let last ← CppInt.checked (CppInt.toInt (s.lines.length : Int) - 1)
  let s := { s with cursorRow := min s.cursorRow last }
  let it ← getIterator s s.cursorRow
  let cur ← CppList.deref s.lines it
  pure { s with cursorCol := min s.cursorCol (CppInt.toInt (cur.length : Int)) }

/-- The member `undo`. -/
def undo (s : MultiLineTextEditor) : Option (MultiLineTextEditor × Output) := do
  let s ←
    match s.undoStack with
    | top :: rest =>
      clampCursor { s with redoStack := s.lines :: s.redoStack, lines := top, undoStack := rest }
    | [] => pure s
  let out ← displayText s
  pure (s, out)

/-- The member `redo`. -/
def redo (s : MultiLineTextEditor) : Option (MultiLineTextEditor × Output) := do
  let s ←
    match s.redoStack with
    | top :: rest =>
      clampCursor { s with undoStack := s.lines :: s.undoStack, lines := top, redoStack := rest }
    | [] => pure s
  let out ← displayText s
  pure (s, out)

/-- The line the cursor row selects (the empty line when the row selects none). -/
def curLine (s : MultiLineTextEditor) : Line := s.lines.getD s.cursorRow.toNat []

/-- The buffer and cursor invariants: the buffer has a line, the row selects a line of
the buffer, and the column is an offset into that line or its length. -/
def Valid (s : MultiLineTextEditor) : Prop :=
  1 ≤ s.lines.length ∧
  (0 ≤ s.cursorRow ∧ s.cursorRow < (s.lines.length : Int)) ∧
  (0 ≤ s.cursorCol ∧ s.cursorCol ≤ ((curLine s).length : Int))

instance (s : MultiLineTextEditor) : Decidable (Valid s) := by
  unfold Valid; infer_instance

/-- The invariant of the whole object: the buffer and cursor invariants, and every
snapshot held on either stack has a line. -/
def Inv (s : MultiLineTextEditor) : Prop :=
  Valid s ∧ (∀ snap ∈ s.undoStack, 1 ≤ snap.length) ∧ (∀ snap ∈ s.redoStack, 1 ≤ snap.length)

instance (s : MultiLineTextEditor) : Decidable (Inv s) := by
  unfold Inv; infer_instance

/-- Whether the sizes of a buffer, the number of its lines and the length of each line,
are values of the type `int`. -/
def IntSized (ls : List Line) : Prop :=
  ls.length ≤ 2147483647 ∧ ∀ l ∈ ls, l.length ≤ 2147483647

instance (ls : List Line) : Decidable (IntSized ls) := by
  unfold IntSized; infer_instance

/-- The end of every public member function: `displayText()`, then the return to the
caller with the object in the state `s`. -/
def render (s : MultiLineTextEditor) : Option (MultiLineTextEditor × Output) :=
  (displayText s).bind fun out => some (s, out)

/-- The public operations of the class, as the commands of `main` invoke them. -/
inductive Op where
  | insert (text : Line)
  | insertMultipleLines (texts : List Line)
  | deleteChar
  | moveLeft
  | moveRight
  | moveUp
  | moveDown
  | newLine
  | undo
  | redo
  deriving DecidableEq, Repr

/-- One call of a public member function. -/
def Op.apply : Op → MultiLineTextEditor → Option (MultiLineTextEditor × Output)
  | .insert text => MultiLineTextEditor.insert text
  | .insertMultipleLines texts => MultiLineTextEditor.insertMultipleLines texts
  | .deleteChar => MultiLineTextEditor.deleteChar
  | .moveLeft => MultiLineTextEditor.moveLeft
  | .moveRight => MultiLineTextEditor.moveRight
  | .moveUp => MultiLineTextEditor.moveUp
  | .moveDown => MultiLineTextEditor.moveDown
  | .newLine => MultiLineTextEditor.newLine
  | .undo => MultiLineTextEditor.undo
  | .redo => MultiLineTextEditor.redo

/-- A sequence of calls, one after the other; the object state after the last. -/
def run : List Op → MultiLineTextEditor → Option MultiLineTextEditor
  | [], s => some s
  | op :: rest, s => (op.apply s).bind fun r => run rest r.1

/-- Whether the call of `op` in state `s` reaches `saveState`: `insert`,
`insertMultipleLines` and `newLine` always do, `deleteChar` when the column is below
the length of the current line. -/
def takesSnapshot (op : Op) (s : MultiLineTextEditor) : Bool :=
  match op with
  | .insert _ => true
  | .insertMultipleLines _ => true
  | .newLine => true
  | .deleteChar => CppString.ltSize s.cursorCol (curLine s).length
  | _ => false

end MultiLineTextEditor

/-! ## Auxiliary facts about the string and list primitives -/

namespace MultiLineTextEditor

theorem position_eq (l : Line) (c : Int) (h0 : 0 ≤ c) (h1 : c ≤ (l.length : Int)) :
    CppString.position l c = some c.toNat := by
  simp [CppString.position, h0, h1]

theorem getIterator_eq (s : MultiLineTextEditor) (r : Int) (h0 : 0 ≤ r)
    (h1 : r ≤ (s.lines.length : Int)) : getIterator s r = some r.toNat := by
  simp [getIterator, h0, h1]

theorem getD_eq_of_getElem? {ls : List Line} {i : Nat} {l : Line} (h : ls[i]? = some l) :
    ls.getD i [] = l := by
  simp [List.getD, h]

theorem getElem?_getD (ls : List Line) (i : Nat) (h : i < ls.length) :
    ls[i]? = some (ls.getD i []) := by
  simp [List.getD, List.getElem?_eq_getElem h]

theorem deref_curLine (s : MultiLineTextEditor) (h0 : 0 ≤ s.cursorRow)
    (h1 : s.cursorRow < (s.lines.length : Int)) :
    CppList.deref s.lines s.cursorRow.toNat = some (curLine s) := by
  unfold CppList.deref curLine
  exact getElem?_getD _ _ (by omega)

theorem displayRows_isSome (cr cc : Int) : ∀ (ls : List Line) (k : Int),
    (∀ (i : Nat) (l : Line), ls[i]? = some l → k + (i : Int) = cr →
      0 ≤ cc ∧ cc ≤ (l.length : Int)) →
    ∃ out, displayRows cr cc ls k = some out := by
  intro ls
  induction ls with
  | nil => intro k _; exact ⟨[], rfl⟩
  | cons line rest ih =>
    intro k h
    have hrest : ∃ out, displayRows cr cc rest (k + 1) = some out := by
      apply ih
      intro i l hi hk
      exact h (i + 1) l (by simpa using hi) (by push_cast; omega)
    obtain ⟨more, hmore⟩ := hrest
    by_cases hk : k = cr
    · subst hk
      obtain ⟨h0, h1⟩ := h 0 line (by simp) (by simp)
      simp [displayRows, CppString.substrCount, CppString.substr, CppString.position, hmore,
        h0, h1]
    · simp [displayRows, hk, hmore]

theorem displayText_isSome (s : MultiLineTextEditor) (h : Valid s) :
    ∃ out, displayText s = some out := by
  obtain ⟨_, ⟨hr0, hr1⟩, hc⟩ := h
  have : ∃ out, displayRows s.cursorRow s.cursorCol s.lines 0 = some out := by
    apply displayRows_isSome
    intro i l hi hk
    have : i = s.cursorRow.toNat := by omega
    subst this
    have := getD_eq_of_getElem? hi
    unfold curLine at hc
    rw [this] at hc
    exact hc
  obtain ⟨body, hbody⟩ := this
  exact ⟨header :: body ++ [footer], by simp [displayText, hbody]⟩

theorem displayText_head (s : MultiLineTextEditor) (out : Output)
    (h : displayText s = some out) : out.head? = some header := by
  unfold displayText at h
  cases hb : displayRows s.cursorRow s.cursorCol s.lines 0 with
  | none => simp [hb] at h
  | some body =>
    simp [hb] at h
    subst h
    rfl


theorem set_take_succ (x : Line) : ∀ (ls : List Line) (r : Nat), r < ls.length →
    (ls.set r x).take (r + 1) = ls.take r ++ [x] := by
  intro ls
  induction ls with
  | nil => intro r h; simp at h
  | cons a rest ih =>
    intro r h
    cases r with
    | zero => simp
    | succ n =>
      have hn : n < rest.length := by simpa using h
      simp [List.set, ih n hn]

theorem set_drop_succ (x : Line) : ∀ (ls : List Line) (r : Nat),
    (ls.set r x).drop (r + 1) = ls.drop (r + 1) := by
  intro ls
  induction ls with
  | nil => intro r; simp
  | cons a rest ih =>
    intro r
    cases r with
    | zero => simp
    | succ n => simp [List.set, ih n]

theorem getD_set_self (x : Line) (ls : List Line) (r : Nat) (h : r < ls.length) :
    (ls.set r x).getD r [] = x := by
  simp [List.getD, List.getElem?_set, h]

/-- The conversion to `int` keeps a value of the type. -/
theorem toInt_eq (x : Int) (h0 : -2147483648 ≤ x) (h1 : x ≤ 2147483647) : CppInt.toInt x = x := by
  simp only [CppInt.toInt]
  omega

/-- The conversion to `int` of a value from 2^31 up to 2^32 - 1 is negative. -/
theorem toInt_neg (x : Int) (h0 : 2147483648 ≤ x) (h1 : x ≤ 4294967295) : CppInt.toInt x < 0 := by
  simp only [CppInt.toInt]
  omega

theorem checked_eq (x : Int) (h0 : -2147483648 ≤ x) (h1 : x ≤ 2147483647) :
    CppInt.checked x = some x := by
  simp [CppInt.checked, h0, h1]

/-- When the loop of `displayText` completes, the column is a position of every line
whose counter value is the cursor row. -/
theorem displayRows_cursor (cr cc : Int) : ∀ (ls : List Line) (k : Int) (body : List Line),
    displayRows cr cc ls k = some body →
    ∀ (i : Nat) (l : Line), ls[i]? = some l → k + (i : Int) = cr →
      0 ≤ cc ∧ cc ≤ (l.length : Int) := by
  intro ls
  induction ls with
  | nil => intro k body _ i l hi; simp at hi
  | cons line rest ih =>
    intro k body he i l hi hk
    by_cases hkc : k = cr
    · subst hkc
      simp only [displayRows, if_true, CppString.substrCount, CppString.substr,
        CppString.position, Option.bind_eq_bind, Option.pure_def, Option.bind_eq_some,
        Option.map_eq_some', Option.some.injEq] at he
      obtain ⟨left, _, right, ⟨p, hp, _⟩, more, hmore, _⟩ := he
      cases i with
      | zero =>
        simp only [List.getElem?_cons_zero, Option.some.injEq] at hi
        subst hi
        by_cases hpos : 0 ≤ cc ∧ cc ≤ (line.length : Int)
        · exact hpos
        · simp [hpos] at hp
      | succ n =>
        exfalso
        push_cast at hk
        omega
    · simp only [displayRows, hkc, if_false, Option.bind_eq_bind, Option.pure_def,
        Option.bind_eq_some, Option.some.injEq] at he
      obtain ⟨more, hmore, _⟩ := he
      cases i with
      | zero => exact absurd (by simpa using hk) hkc
      | succ n =>
        simp only [List.getElem?_cons_succ] at hi
        exact ih (k + 1) more hmore n l hi (by push_cast at hk ⊢; omega)

/-- A state whose row selects a line and that `displayText` renders is valid. -/
theorem valid_of_displayText (s : MultiLineTextEditor) (out : Output)
    (hr0 : 0 ≤ s.cursorRow) (hr1 : s.cursorRow < (s.lines.length : Int))
    (hd : displayText s = some out) : Valid s := by
  simp only [displayText, Option.bind_eq_bind, Option.pure_def, Option.bind_eq_some,
    Option.some.injEq] at hd
  obtain ⟨body, hbody, _⟩ := hd
  refine ⟨by omega, ⟨hr0, hr1⟩, ?_⟩
  exact displayRows_cursor _ _ _ _ _ hbody s.cursorRow.toNat (curLine s)
    (getElem?_getD _ _ (by omega)) (by omega)

/-- The cases of `render`. -/
theorem render_eq_some (s s1 : MultiLineTextEditor) (out : Output) :
    render s = some (s1, out) ↔ s1 = s ∧ displayText s = some out := by
  simp only [render, Option.bind_eq_some, Option.some.injEq, Prod.mk.injEq]
  constructor
  · rintro ⟨o, ho, rfl, rfl⟩
    exact ⟨rfl, ho⟩
  · rintro ⟨rfl, ho⟩
    exact ⟨out, ho, rfl, rfl⟩

/-- A valid state is rendered and returned. -/
theorem render_valid (s : MultiLineTextEditor) (h : Valid s) :
    ∃ out, render s = some (s, out) := by
  obtain ⟨out, hout⟩ := displayText_isSome s h
  exact ⟨out, (render_eq_some s s out).2 ⟨rfl, hout⟩⟩

/-- With a column that is no position of the cursor line `displayText` throws. -/
theorem render_eq_none (s : MultiLineTextEditor) (hr0 : 0 ≤ s.cursorRow)
    (hr1 : s.cursorRow < (s.lines.length : Int))
    (hc : ¬ (0 ≤ s.cursorCol ∧ s.cursorCol ≤ ((curLine s).length : Int))) :
    render s = none := by
  cases h : render s with
  | none => rfl
  | some r =>
    obtain ⟨s1, out⟩ := r
    obtain ⟨_, hd⟩ := (render_eq_some s s1 out).1 h
    exact absurd (valid_of_displayText s out hr0 hr1 hd).2.2 hc


/-- On a valid state `insert` changes the line and the column, which is converted to
`int`, pushes the snapshot, and ends in the rendering. -/
theorem insert_render (text : Line) (s : MultiLineTextEditor) (h : Valid s) :
    insert text s = render (MultiLineTextEditor.mk
      (s.lines.set s.cursorRow.toNat
        ((curLine s).take s.cursorCol.toNat ++ text ++ (curLine s).drop s.cursorCol.toNat))
      s.cursorRow (CppInt.toInt (s.cursorCol + (text.length : Int)))
      (s.lines :: s.undoStack) []) := by
  obtain ⟨hl, ⟨hr0, hr1⟩, hc0, hc1⟩ := h
  have hd := deref_curLine s hr0 hr1
  simp [insert, render, saveState, getIterator, hr0, hr1.le, hd, CppString.insert,
    CppString.position, hc0, hc1]

/-- The state `insert` leaves behind when the new column is a value of `int`. -/
theorem insert_eq (text : Line) (s : MultiLineTextEditor) (h : Valid s)
    (hfit : s.cursorCol + (text.length : Int) ≤ 2147483647) :
    ∃ s1 out, insert text s = some (s1, out) ∧ Valid s1 ∧
      s1.lines = s.lines.set s.cursorRow.toNat
        ((curLine s).take s.cursorCol.toNat ++ text ++ (curLine s).drop s.cursorCol.toNat) ∧
      s1.cursorRow = s.cursorRow ∧ s1.cursorCol = s.cursorCol + (text.length : Int) ∧
      s1.undoStack = s.lines :: s.undoStack ∧ s1.redoStack = [] := by
  have hrd := insert_render text s h
  obtain ⟨hl, ⟨hr0, hr1⟩, hc0, hc1⟩ := h
  rw [toInt_eq _ (by omega) hfit] at hrd
  have hv : Valid (MultiLineTextEditor.mk
      (s.lines.set s.cursorRow.toNat
        ((curLine s).take s.cursorCol.toNat ++ text ++ (curLine s).drop s.cursorCol.toNat))
      s.cursorRow (s.cursorCol + (text.length : Int)) (s.lines :: s.undoStack) []) := by
    refine ⟨by simpa using hl, ⟨hr0, by simpa using hr1⟩, ?_⟩
    simp only [curLine] at hc1 ⊢
    rw [getD_set_self _ _ _ (by omega)]
    simp only [List.length_append, List.length_take, List.length_drop]
    push_cast
    omega
  obtain ⟨out, hout⟩ := render_valid _ hv
  exact ⟨_, out, by rw [hrd, hout], hv, rfl, rfl, rfl, rfl, rfl⟩

/-- A call of `insert` that completes leaves a valid state, has pushed the previous
buffer and has emptied the redo stack. -/
theorem insert_some (text : Line) (s s1 : MultiLineTextEditor) (out : Output) (h : Valid s)
    (he : insert text s = some (s1, out)) :
    Valid s1 ∧ s1.undoStack = s.lines :: s.undoStack ∧ s1.redoStack = [] ∧
      s1.cursorRow = s.cursorRow ∧
      s1.cursorCol = CppInt.toInt (s.cursorCol + (text.length : Int)) := by
  rw [insert_render text s h] at he
  obtain ⟨rfl, hd⟩ := (render_eq_some _ _ _).1 he
  obtain ⟨hl, ⟨hr0, hr1⟩, _⟩ := h
  exact ⟨valid_of_displayText _ out hr0 (by simpa using hr1) hd, rfl, rfl, rfl, rfl⟩

/-- The state `newLine` leaves behind. -/
theorem newLine_eq (s : MultiLineTextEditor) (h : Valid s) :
    ∃ s1 out, newLine s = some (s1, out) ∧ Valid s1 ∧
      s1.lines = s.lines.take s.cursorRow.toNat ++
        [(curLine s).take s.cursorCol.toNat, (curLine s).drop s.cursorCol.toNat] ++
        s.lines.drop (s.cursorRow.toNat + 1) ∧
      s1.cursorRow = s.cursorRow + 1 ∧ s1.cursorCol = 0 ∧
      s1.undoStack = s.lines :: s.undoStack ∧ s1.redoStack = [] := by
  obtain ⟨hl, ⟨hr0, hr1⟩, hc0, hc1⟩ := h
  have hv : Valid (MultiLineTextEditor.mk
      (s.lines.take s.cursorRow.toNat ++
          [(curLine s).take s.cursorCol.toNat, (curLine s).drop s.cursorCol.toNat] ++
          s.lines.drop (s.cursorRow.toNat + 1))
      (s.cursorRow + 1) 0 (s.lines :: s.undoStack) []) := by
    refine ⟨by simp; omega, ⟨by simp only; omega, ?_⟩, le_refl _, by simp⟩
    simp only [List.length_append, List.length_take, List.length_drop, List.length_cons,
      List.length_nil]
    push_cast
    omega
  obtain ⟨out, hout⟩ := displayText_isSome _ hv
  refine ⟨_, out, ?_, hv, rfl, rfl, rfl, rfl, rfl⟩
  have hd := deref_curLine s hr0 hr1
  have hlt : s.cursorRow.toNat < s.lines.length := by omega
  simp [newLine, saveState, getIterator, hr0, hr1.le, hd, CppString.substr, CppString.erase,
    CppString.position, hc0, hc1, CppList.next, hlt, CppList.insert, set_take_succ _ _ _ hlt,
    set_drop_succ]
  simp only [List.append_assoc, List.cons_append, List.nil_append] at hout
  simp [hout]

/-- The call `deleteChar` with nothing right of the cursor. -/
theorem deleteChar_end (s : MultiLineTextEditor) (hr0 : 0 ≤ s.cursorRow)
    (hr1 : s.cursorRow < (s.lines.length : Int))
    (hc : ¬ (0 ≤ s.cursorCol ∧ s.cursorCol < ((curLine s).length : Int))) :
    deleteChar s = some (s, [nothingToDelete]) := by
  have hd := deref_curLine s hr0 hr1
  simp [deleteChar, getIterator, hr0, hr1.le, hd, CppString.ltSize, hc]

/-- The state `deleteChar` leaves behind when a character is right of the cursor. -/
theorem deleteChar_eq (s : MultiLineTextEditor) (h : Valid s)
    (hc : s.cursorCol < ((curLine s).length : Int)) :
    ∃ s1 out, deleteChar s = some (s1, out) ∧ Valid s1 ∧
      s1.lines = s.lines.set s.cursorRow.toNat
        ((curLine s).take s.cursorCol.toNat ++ (curLine s).drop (s.cursorCol.toNat + 1)) ∧
      s1.cursorRow = s.cursorRow ∧ s1.cursorCol = s.cursorCol ∧
      s1.undoStack = s.lines :: s.undoStack ∧ s1.redoStack = [] := by
  obtain ⟨hl, ⟨hr0, hr1⟩, hc0, hc1⟩ := h
  have hv : Valid (MultiLineTextEditor.mk
      (s.lines.set s.cursorRow.toNat
        ((curLine s).take s.cursorCol.toNat ++ (curLine s).drop (s.cursorCol.toNat + 1)))
      s.cursorRow s.cursorCol (s.lines :: s.undoStack) []) := by
    refine ⟨by simpa using hl, ⟨hr0, by simpa using hr1⟩, hc0, ?_⟩
    simp only [curLine] at hc ⊢
    rw [getD_set_self _ _ _ (by omega)]
    simp only [List.length_append, List.length_take, List.length_drop]
    push_cast
    omega
  obtain ⟨out, hout⟩ := displayText_isSome _ hv
  refine ⟨_, out, ?_, hv, rfl, rfl, rfl, rfl, rfl⟩
  have hd := deref_curLine s hr0 hr1
  simp [deleteChar, saveState, getIterator, hr0, hr1.le, hd, CppString.ltSize, hc, hc0,
    CppString.eraseCount, CppString.position, hc1, CppString.count, hout]



/-- A bound on every line of a buffer bounds the line a row selects. -/
theorem getD_length_le (ls : List Line) (hb : ∀ l ∈ ls, l.length ≤ 2147483647) (i : Nat) :
    (ls.getD i []).length ≤ 2147483647 := by
  cases h : ls[i]? with
  | none => simp [List.getD, h]
  | some l =>
    rw [getD_eq_of_getElem? h]
    exact hb l (List.getElem?_mem h)

/-- On a valid state `moveLeft` moves the cursor, converting the length of the line
above to `int` when it wraps, and ends in the rendering. -/
theorem moveLeft_render (s : MultiLineTextEditor) (h : Valid s) :
    moveLeft s = render (MultiLineTextEditor.mk s.lines
        (if s.cursorCol > 0 then s.cursorRow else if s.cursorRow > 0 then s.cursorRow - 1
          else s.cursorRow)
        (if s.cursorCol > 0 then s.cursorCol - 1 else if s.cursorRow > 0 then
          CppInt.toInt ((s.lines.getD (s.cursorRow - 1).toNat []).length : Int)
          else s.cursorCol)
        s.undoStack s.redoStack) := by
  obtain ⟨hl, ⟨hr0, hr1⟩, hc0, hc1⟩ := h
  by_cases hc : s.cursorCol > 0
  · simp [moveLeft, render, hc]
  · by_cases hr : s.cursorRow > 0
    · obtain ⟨l, hl1, hl2⟩ : ∃ l, s.lines[(s.cursorRow - 1).toNat]? = some l ∧
          s.lines.getD (s.cursorRow - 1).toNat [] = l :=
        ⟨_, getElem?_getD _ _ (by omega), rfl⟩
      have h1 : 0 ≤ s.cursorRow - 1 := by omega
      have h2 : s.cursorRow - 1 ≤ (s.lines.length : Int) := by omega
      have hl3 : s.lines[s.cursorRow.toNat - 1]? = some l := by simpa using hl1
      simp only [hc, hr, if_true, if_false, hl2]
      simp [moveLeft, render, hc, hr, getIterator, h1, h2, CppList.deref, hl3]
    · simp only [hc, hr, if_false]
      simp [moveLeft, render, hc, hr]

/-- The state `moveLeft` leaves behind when the lines have lengths of type `int`. -/
theorem moveLeft_eq (s : MultiLineTextEditor) (h : Valid s)
    (hb : ∀ l ∈ s.lines, l.length ≤ 2147483647) :
    ∃ out, moveLeft s = some
      (MultiLineTextEditor.mk s.lines
        (if s.cursorCol > 0 then s.cursorRow else if s.cursorRow > 0 then s.cursorRow - 1
          else s.cursorRow)
        (if s.cursorCol > 0 then s.cursorCol - 1 else if s.cursorRow > 0 then
          ((s.lines.getD (s.cursorRow - 1).toNat []).length : Int) else s.cursorCol)
        s.undoStack s.redoStack, out) ∧
      Valid (MultiLineTextEditor.mk s.lines
        (if s.cursorCol > 0 then s.cursorRow else if s.cursorRow > 0 then s.cursorRow - 1
          else s.cursorRow)
        (if s.cursorCol > 0 then s.cursorCol - 1 else if s.cursorRow > 0 then
          ((s.lines.getD (s.cursorRow - 1).toNat []).length : Int) else s.cursorCol)
        s.undoStack s.redoStack) := by
  have hrd := moveLeft_render s h
  have hlen := getD_length_le s.lines hb (s.cursorRow - 1).toNat
  rw [toInt_eq _ (by omega) (by omega)] at hrd
  obtain ⟨hl, ⟨hr0, hr1⟩, hc0, hc1⟩ := h
  have hv : Valid (MultiLineTextEditor.mk s.lines
        (if s.cursorCol > 0 then s.cursorRow else if s.cursorRow > 0 then s.cursorRow - 1
          else s.cursorRow)
        (if s.cursorCol > 0 then s.cursorCol - 1 else if s.cursorRow > 0 then
          ((s.lines.getD (s.cursorRow - 1).toNat []).length : Int) else s.cursorCol)
        s.undoStack s.redoStack) := by
    simp only [curLine] at hc1
    by_cases hc : s.cursorCol > 0
    · simp only [hc, if_true]
      exact ⟨hl, ⟨hr0, hr1⟩, by simp only; omega, by simp only [curLine]; omega⟩
    · by_cases hr : s.cursorRow > 0
      · simp only [hc, hr, if_true, if_false]
        exact ⟨hl, ⟨by simp only; omega, by simp only; omega⟩, by simp only; omega,
          by simp only [curLine]; exact le_refl _⟩
      · simp only [hc, hr, if_false]
        exact ⟨hl, ⟨hr0, hr1⟩, hc0, by simp only [curLine]; exact hc1⟩
  obtain ⟨out, hout⟩ := render_valid _ hv
  exact ⟨out, by rw [hrd, hout], hv⟩

/-- A call of `moveLeft` on a valid state that completes leaves a valid state. -/
theorem moveLeft_some (s s1 : MultiLineTextEditor) (out : Output) (h : Valid s)
    (he : moveLeft s = some (s1, out)) : Valid s1 := by
  rw [moveLeft_render s h] at he
  obtain ⟨rfl, hd⟩ := (render_eq_some _ _ _).1 he
  obtain ⟨hl, ⟨hr0, hr1⟩, _⟩ := h
  refine valid_of_displayText _ out ?_ ?_ hd
  · simp only; split_ifs <;> omega
  · simp only; split_ifs <;> omega

/-- On a valid state `moveRight` moves the cursor, with `cursorCol++` as a checked
increment, and ends in the rendering. -/
theorem moveRight_render (s : MultiLineTextEditor) (h : Valid s) :
    moveRight s =
      if s.cursorCol < ((curLine s).length : Int) then
        (CppInt.checked (s.cursorCol + 1)).bind fun col =>
          render (MultiLineTextEditor.mk s.lines s.cursorRow col s.undoStack s.redoStack)
      else if s.cursorRow < (s.lines.length : Int) - 1 then
        render (MultiLineTextEditor.mk s.lines (s.cursorRow + 1) 0 s.undoStack s.redoStack)
      else render s := by
  obtain ⟨hl, ⟨hr0, hr1⟩, hc0, hc1⟩ := h
  have hd := deref_curLine s hr0 hr1
  have hn : s.lines.length ≠ 0 := by omega
  by_cases hc : s.cursorCol < ((curLine s).length : Int)
  · simp only [hc, if_true]
    cases hck : CppInt.checked (s.cursorCol + 1) with
    | none => simp [moveRight, getIterator, hr0, hr1.le, hd, CppString.ltSize, hc, hc0, hck]
    | some col =>
      simp [moveRight, render, getIterator, hr0, hr1.le, hd, CppString.ltSize, hc, hc0, hck]
  · by_cases hr : s.cursorRow < (s.lines.length : Int) - 1
    · have hr2 : s.cursorRow < ((s.lines.length - 1 : Nat) : Int) := by omega
      simp only [hc, hr, if_true, if_false]
      simp [moveRight, render, getIterator, hr0, hr1.le, hd, CppString.ltSize,
        CppString.ltSizePred, hc, hn, hr2]
    · have hr2 : ¬ s.cursorRow < ((s.lines.length - 1 : Nat) : Int) := by omega
      simp only [hc, hr, if_false]
      simp [moveRight, render, getIterator, hr0, hr1.le, hd, CppString.ltSize,
        CppString.ltSizePred, hc, hn, hr2]

/-- The state `moveRight` leaves behind when the lines have lengths of type `int`. -/
theorem moveRight_eq (s : MultiLineTextEditor) (h : Valid s)
    (hb : ∀ l ∈ s.lines, l.length ≤ 2147483647) :
    ∃ out, moveRight s = some
      (MultiLineTextEditor.mk s.lines
        (if s.cursorCol < ((curLine s).length : Int) then s.cursorRow
          else if s.cursorRow < (s.lines.length : Int) - 1 then s.cursorRow + 1 else s.cursorRow)
        (if s.cursorCol < ((curLine s).length : Int) then s.cursorCol + 1
          else if s.cursorRow < (s.lines.length : Int) - 1 then 0 else s.cursorCol)
        s.undoStack s.redoStack, out) ∧
      Valid (MultiLineTextEditor.mk s.lines
        (if s.cursorCol < ((curLine s).length : Int) then s.cursorRow
          else if s.cursorRow < (s.lines.length : Int) - 1 then s.cursorRow + 1 else s.cursorRow)
        (if s.cursorCol < ((curLine s).length : Int) then s.cursorCol + 1
          else if s.cursorRow < (s.lines.length : Int) - 1 then 0 else s.cursorCol)
        s.undoStack s.redoStack) := by
  have hrd := moveRight_render s h
  have hlen : (curLine s).length ≤ 2147483647 := getD_length_le s.lines hb s.cursorRow.toNat
  obtain ⟨hl, ⟨hr0, hr1⟩, hc0, hc1⟩ := h
  by_cases hc : s.cursorCol < ((curLine s).length : Int)
  · have hv : Valid (MultiLineTextEditor.mk s.lines s.cursorRow (s.cursorCol + 1)
        s.undoStack s.redoStack) := by
      refine ⟨hl, ⟨hr0, hr1⟩, ?_, ?_⟩
      · simp only; omega
      · simp only [curLine] at hc ⊢; omega
    obtain ⟨out, hout⟩ := render_valid _ hv
    simp only [hc, if_true] at hrd ⊢
    rw [checked_eq _ (by omega) (by omega)] at hrd
    exact ⟨out, by rw [hrd]; exact hout, hv⟩
  · by_cases hr : s.cursorRow < (s.lines.length : Int) - 1
    · have hv : Valid (MultiLineTextEditor.mk s.lines (s.cursorRow + 1) 0
          s.undoStack s.redoStack) := by
        refine ⟨hl, ⟨?_, ?_⟩, le_refl _, ?_⟩
        · simp only; omega
        · simp only; omega
        · simp
      obtain ⟨out, hout⟩ := render_valid _ hv
      simp only [hc, hr, if_true, if_false] at hrd ⊢
      exact ⟨out, by rw [hrd, hout], hv⟩
    · have hv : Valid s := ⟨hl, ⟨hr0, hr1⟩, hc0, hc1⟩
      obtain ⟨out, hout⟩ := render_valid _ hv
      simp only [hc, hr, if_false] at hrd ⊢
      exact ⟨out, by rw [hrd, hout], hv⟩

/-- A call of `moveRight` on a valid state that completes leaves a valid state. -/
theorem moveRight_some (s s1 : MultiLineTextEditor) (out : Output) (h : Valid s)
    (he : moveRight s = some (s1, out)) : Valid s1 := by
  rw [moveRight_render s h] at he
  obtain ⟨hl, ⟨hr0, hr1⟩, _⟩ := h
  split_ifs at he with hc hr
  · simp only [Option.bind_eq_some] at he
    obtain ⟨col, _, he⟩ := he
    obtain ⟨rfl, hd⟩ := (render_eq_some _ _ _).1 he
    exact valid_of_displayText _ out hr0 hr1 hd
  · obtain ⟨rfl, hd⟩ := (render_eq_some _ _ _).1 he
    exact valid_of_displayText _ out (by simp only; omega) (by simp only; omega) hd
  · obtain ⟨rfl, hd⟩ := (render_eq_some _ _ _).1 he
    exact valid_of_displayText _ out hr0 hr1 hd


/-- On a valid state `moveUp` moves the cursor, clamping the column to the length of
the line above converted to `int`, and ends in the rendering. -/
theorem moveUp_render (s : MultiLineTextEditor) (h : Valid s) :
    moveUp s = render (MultiLineTextEditor.mk s.lines
        (if s.cursorRow > 0 then s.cursorRow - 1 else s.cursorRow)
        (if s.cursorRow > 0 then
          min s.cursorCol
            (CppInt.toInt ((s.lines.getD (s.cursorRow - 1).toNat []).length : Int))
          else s.cursorCol)
        s.undoStack s.redoStack) := by
  obtain ⟨hl, ⟨hr0, hr1⟩, hc0, hc1⟩ := h
  by_cases hr : s.cursorRow > 0
  · obtain ⟨l, hl1, hl2⟩ : ∃ l, s.lines[(s.cursorRow - 1).toNat]? = some l ∧
        s.lines.getD (s.cursorRow - 1).toNat [] = l :=
      ⟨_, getElem?_getD _ _ (by omega), rfl⟩
    have h1 : 0 ≤ s.cursorRow - 1 := by omega
    have h2 : s.cursorRow - 1 ≤ (s.lines.length : Int) := by omega
    have hl3 : s.lines[s.cursorRow.toNat - 1]? = some l := by simpa using hl1
    simp only [hr, if_true, hl2]
    simp [moveUp, render, hr, getIterator, h1, h2, CppList.deref, hl3]
  · simp only [hr, if_false]
    simp [moveUp, render, hr]

/-- The state `moveUp` leaves behind when the lines have lengths of type `int`. -/
theorem moveUp_eq (s : MultiLineTextEditor) (h : Valid s)
    (hb : ∀ l ∈ s.lines, l.length ≤ 2147483647) :
    ∃ out, moveUp s = some
      (MultiLineTextEditor.mk s.lines
        (if s.cursorRow > 0 then s.cursorRow - 1 else s.cursorRow)
        (if s.cursorRow > 0 then
          min s.cursorCol ((s.lines.getD (s.cursorRow - 1).toNat []).length : Int)
          else s.cursorCol)
        s.undoStack s.redoStack, out) ∧
      Valid (MultiLineTextEditor.mk s.lines
        (if s.cursorRow > 0 then s.cursorRow - 1 else s.cursorRow)
        (if s.cursorRow > 0 then
          min s.cursorCol ((s.lines.getD (s.cursorRow - 1).toNat []).length : Int)
          else s.cursorCol)
        s.undoStack s.redoStack) := by
  have hrd := moveUp_render s h
  have hlen := getD_length_le s.lines hb (s.cursorRow - 1).toNat
  rw [toInt_eq _ (by omega) (by omega)] at hrd
  obtain ⟨hl, ⟨hr0, hr1⟩, hc0, hc1⟩ := h
  have hv : Valid (MultiLineTextEditor.mk s.lines
        (if s.cursorRow > 0 then s.cursorRow - 1 else s.cursorRow)
        (if s.cursorRow > 0 then
          min s.cursorCol ((s.lines.getD (s.cursorRow - 1).toNat []).length : Int)
          else s.cursorCol)
        s.undoStack s.redoStack) := by
    by_cases hr : s.cursorRow > 0
    · simp only [hr, if_true]
      exact ⟨hl, ⟨by simp only; omega, by simp only; omega⟩, by simp only; omega,
        by simp only [curLine]; omega⟩
    · simp only [hr, if_false]
      exact ⟨hl, ⟨hr0, hr1⟩, hc0, hc1⟩
  obtain ⟨out, hout⟩ := render_valid _ hv
  exact ⟨out, by rw [hrd, hout], hv⟩

/-- A call of `moveUp` on a valid state that completes leaves a valid state. -/
theorem moveUp_some (s s1 : MultiLineTextEditor) (out : Output) (h : Valid s)
    (he : moveUp s = some (s1, out)) : Valid s1 := by
  rw [moveUp_render s h] at he
  obtain ⟨rfl, hd⟩ := (render_eq_some _ _ _).1 he
  obtain ⟨hl, ⟨hr0, hr1⟩, _⟩ := h
  refine valid_of_displayText _ out ?_ ?_ hd
  · simp only; split_ifs <;> omega
  · simp only; split_ifs <;> omega

/-- On a valid state `moveDown` moves the cursor, clamping the column to the length of
the line below converted to `int`, and ends in the rendering. -/
theorem moveDown_render (s : MultiLineTextEditor) (h : Valid s) :
    moveDown s = render (MultiLineTextEditor.mk s.lines
        (if s.cursorRow < (s.lines.length : Int) - 1 then s.cursorRow + 1 else s.cursorRow)
        (if s.cursorRow < (s.lines.length : Int) - 1 then
          min s.cursorCol
            (CppInt.toInt ((s.lines.getD (s.cursorRow + 1).toNat []).length : Int))
          else s.cursorCol)
        s.undoStack s.redoStack) := by
  obtain ⟨hl, ⟨hr0, hr1⟩, hc0, hc1⟩ := h
  have hn : s.lines.length ≠ 0 := by omega
  by_cases hr : s.cursorRow < (s.lines.length : Int) - 1
  · obtain ⟨l, hl1, hl2⟩ : ∃ l, s.lines[(s.cursorRow + 1).toNat]? = some l ∧
        s.lines.getD (s.cursorRow + 1).toNat [] = l :=
      ⟨_, getElem?_getD _ _ (by omega), rfl⟩
    have hr2 : s.cursorRow < ((s.lines.length - 1 : Nat) : Int) := by omega
    have h1 : 0 ≤ s.cursorRow + 1 := by omega
    have h2 : s.cursorRow + 1 ≤ (s.lines.length : Int) := by omega
    simp only [hr, if_true, hl2]
    simp only [moveDown, render, CppString.ltSizePred, hn, if_false, CppString.ltSize, hr0, hr2,
      and_self, decide_True, if_true, getIterator, h1, h2, CppList.deref,
      Option.bind_eq_bind, Option.some_bind, Option.pure_def, hl1]
  · have hr2 : ¬ s.cursorRow < ((s.lines.length - 1 : Nat) : Int) := by omega
    simp only [hr, if_false]
    simp [moveDown, render, CppString.ltSize, CppString.ltSizePred, hn, hr2]

/-- The state `moveDown` leaves behind when the lines have lengths of type `int`. -/
theorem moveDown_eq (s : MultiLineTextEditor) (h : Valid s)
    (hb : ∀ l ∈ s.lines, l.length ≤ 2147483647) :
    ∃ out, moveDown s = some
      (MultiLineTextEditor.mk s.lines
        (if s.cursorRow < (s.lines.length : Int) - 1 then s.cursorRow + 1 else s.cursorRow)
        (if s.cursorRow < (s.lines.length : Int) - 1 then
          min s.cursorCol ((s.lines.getD (s.cursorRow + 1).toNat []).length : Int)
          else s.cursorCol)
        s.undoStack s.redoStack, out) ∧
      Valid (MultiLineTextEditor.mk s.lines
        (if s.cursorRow < (s.lines.length : Int) - 1 then s.cursorRow + 1 else s.cursorRow)
        (if s.cursorRow < (s.lines.length : Int) - 1 then
          min s.cursorCol ((s.lines.getD (s.cursorRow + 1).toNat []).length : Int)
          else s.cursorCol)
        s.undoStack s.redoStack) := by
  have hrd := moveDown_render s h
  have hlen := getD_length_le s.lines hb (s.cursorRow + 1).toNat
  rw [toInt_eq _ (by omega) (by omega)] at hrd
  obtain ⟨hl, ⟨hr0, hr1⟩, hc0, hc1⟩ := h
  have hv : Valid (MultiLineTextEditor.mk s.lines
        (if s.cursorRow < (s.lines.length : Int) - 1 then s.cursorRow + 1 else s.cursorRow)
        (if s.cursorRow < (s.lines.length : Int) - 1 then
          min s.cursorCol ((s.lines.getD (s.cursorRow + 1).toNat []).length : Int)
          else s.cursorCol)
        s.undoStack s.redoStack) := by
    by_cases hr : s.cursorRow < (s.lines.length : Int) - 1
    · simp only [hr, if_true]
      exact ⟨hl, ⟨by simp only; omega, by simp only; omega⟩, by simp only; omega,
        by simp only [curLine]; omega⟩
    · simp only [hr, if_false]
      exact ⟨hl, ⟨hr0, hr1⟩, hc0, hc1⟩
  obtain ⟨out, hout⟩ := render_valid _ hv
  exact ⟨out, by rw [hrd, hout], hv⟩

/-- A call of `moveDown` on a valid state that completes leaves a valid state. -/
theorem moveDown_some (s s1 : MultiLineTextEditor) (out : Output) (h : Valid s)
    (he : moveDown s = some (s1, out)) : Valid s1 := by
  rw [moveDown_render s h] at he
  obtain ⟨rfl, hd⟩ := (render_eq_some _ _ _).1 he
  obtain ⟨hl, ⟨hr0, hr1⟩, _⟩ := h
  refine valid_of_displayText _ out ?_ ?_ hd
  · simp only; split_ifs <;> omega
  · simp only; split_ifs <;> omega

/-- The clamping at the end of `undo` and `redo`, when it completes, keeps the buffer
and the stacks, leaves a row that selects a line, and sets the column to the smaller of
the old column and the length of that line converted to `int`. -/
theorem clampCursor_some (s t : MultiLineTextEditor) (he : clampCursor s = some t) :
    t.lines = s.lines ∧ t.undoStack = s.undoStack ∧ t.redoStack = s.redoStack ∧
      0 ≤ t.cursorRow ∧ t.cursorRow < (t.lines.length : Int) ∧
      t.cursorCol = min s.cursorCol (CppInt.toInt ((curLine t).length : Int)) := by
  simp only [clampCursor, Option.bind_eq_bind, Option.pure_def, Option.bind_eq_some,
    Option.some.injEq] at he
  obtain ⟨last, _, it, hit, cur, hcur, rfl⟩ := he
  simp only [getIterator] at hit
  split at hit
  · rename_i hrange
    simp only [Option.some.injEq] at hit
    subst hit
    simp only [CppList.deref] at hcur
    have hlt := (List.getElem?_eq_some_iff.1 hcur).1
    refine ⟨rfl, rfl, rfl, hrange.1, ?_, ?_⟩
    · simp only
      omega
    · simp only [curLine]
      rw [getD_eq_of_getElem? hcur]
  · simp at hit

/-- The clamping at the end of `undo` and `redo` on a buffer with a line whose sizes are
of type `int`, and a cursor without negative coordinates: it completes, with the row
min(row, size - 1) and the column min(col, length), and leaves a valid state. -/
theorem clampCursor_eq (s : MultiLineTextEditor) (hl : 1 ≤ s.lines.length)
    (hs : IntSized s.lines) (hr0 : 0 ≤ s.cursorRow) (hc0 : 0 ≤ s.cursorCol) :
    clampCursor s = some
      (MultiLineTextEditor.mk s.lines (min s.cursorRow ((s.lines.length : Int) - 1))
        (min s.cursorCol
          ((s.lines.getD (min s.cursorRow ((s.lines.length : Int) - 1)).toNat []).length : Int))
        s.undoStack s.redoStack) ∧
    Valid (MultiLineTextEditor.mk s.lines (min s.cursorRow ((s.lines.length : Int) - 1))
        (min s.cursorCol
          ((s.lines.getD (min s.cursorRow ((s.lines.length : Int) - 1)).toNat []).length : Int))
        s.undoStack s.redoStack) := by
  obtain ⟨hsl, hsb⟩ := hs
  have h1 : 0 ≤ min s.cursorRow ((s.lines.length : Int) - 1) := by omega
  have h2 : min s.cursorRow ((s.lines.length : Int) - 1) < (s.lines.length : Int) := by omega
  constructor
  · obtain ⟨l, hl1, hl2⟩ : ∃ l,
        s.lines[(min s.cursorRow ((s.lines.length : Int) - 1)).toNat]? = some l ∧
        s.lines.getD (min s.cursorRow ((s.lines.length : Int) - 1)).toNat [] = l :=
      ⟨_, getElem?_getD _ _ (by omega), rfl⟩
    have hlen : l.length ≤ 2147483647 := hsb l (List.getElem?_mem hl1)
    rw [hl2]
    have e1 : CppInt.toInt (s.lines.length : Int) = (s.lines.length : Int) :=
      toInt_eq _ (by omega) (by omega)
    have e2 : CppInt.checked ((s.lines.length : Int) - 1) = some ((s.lines.length : Int) - 1) :=
      checked_eq _ (by omega) (by omega)
    have e3 : CppInt.toInt (l.length : Int) = (l.length : Int) :=
      toInt_eq _ (by omega) (by omega)
    simp only [clampCursor, e1, e2, Option.bind_eq_bind, Option.some_bind, getIterator, h1, h2.le,
      and_self, if_true, CppList.deref, hl1, e3, Option.pure_def]
  · refine ⟨hl, ⟨h1, h2⟩, ?_, ?_⟩
    · simp only; omega
    · simp only [curLine]; omega


/-- The state `undo` leaves behind when the undo stack holds a snapshot whose sizes are
of type `int`. -/
theorem undo_cons (s : MultiLineTextEditor) (top : List Line) (rest : List (List Line))
    (hu : s.undoStack = top :: rest) (hl : 1 ≤ top.length) (hs : IntSized top)
    (hr0 : 0 ≤ s.cursorRow) (hc0 : 0 ≤ s.cursorCol) :
    ∃ s1 out, undo s = some (s1, out) ∧ Valid s1 ∧ s1.lines = top ∧ s1.undoStack = rest ∧
      s1.redoStack = s.lines :: s.redoStack ∧
      s1.cursorRow = min s.cursorRow ((top.length : Int) - 1) ∧
      s1.cursorCol = min s.cursorCol ((top.getD s1.cursorRow.toNat []).length : Int) := by
  obtain ⟨he, hv⟩ := clampCursor_eq
    (MultiLineTextEditor.mk top s.cursorRow s.cursorCol rest (s.lines :: s.redoStack)) hl hs
    hr0 hc0
  obtain ⟨out, hout⟩ := displayText_isSome _ hv
  refine ⟨_, out, ?_, hv, rfl, rfl, rfl, rfl, rfl⟩
  simp only [undo, hu]
  simp only [he, hout, Option.bind_eq_bind, Option.some_bind, Option.pure_def]

/-- The state `redo` leaves behind when the redo stack holds a snapshot whose sizes are
of type `int`. -/
theorem redo_cons (s : MultiLineTextEditor) (top : List Line) (rest : List (List Line))
    (hu : s.redoStack = top :: rest) (hl : 1 ≤ top.length) (hs : IntSized top)
    (hr0 : 0 ≤ s.cursorRow) (hc0 : 0 ≤ s.cursorCol) :
    ∃ s1 out, redo s = some (s1, out) ∧ Valid s1 ∧ s1.lines = top ∧ s1.redoStack = rest ∧
      s1.undoStack = s.lines :: s.undoStack ∧
      s1.cursorRow = min s.cursorRow ((top.length : Int) - 1) ∧
      s1.cursorCol = min s.cursorCol ((top.getD s1.cursorRow.toNat []).length : Int) := by
  obtain ⟨he, hv⟩ := clampCursor_eq
    (MultiLineTextEditor.mk top s.cursorRow s.cursorCol (s.lines :: s.undoStack) rest) hl hs
    hr0 hc0
  obtain ⟨out, hout⟩ := displayText_isSome _ hv
  refine ⟨_, out, ?_, hv, rfl, rfl, rfl, rfl, rfl⟩
  simp only [redo, hu]
  simp only [he, hout, Option.bind_eq_bind, Option.some_bind, Option.pure_def]

/-- A call of `undo` that pops a snapshot and completes leaves a valid state whose
buffer is the snapshot, with the previous buffer pushed on the redo stack. -/
theorem undo_some (s s1 : MultiLineTextEditor) (out : Output) (top : List Line)
    (rest : List (List Line)) (hu : s.undoStack = top :: rest)
    (he : undo s = some (s1, out)) :
    Valid s1 ∧ s1.lines = top ∧ s1.undoStack = rest ∧ s1.redoStack = s.lines :: s.redoStack ∧
      s1.cursorCol = min s.cursorCol (CppInt.toInt ((curLine s1).length : Int)) := by
  simp only [undo, hu, Option.bind_eq_bind, Option.pure_def, Option.bind_eq_some,
    Option.some.injEq, Prod.mk.injEq] at he
  obtain ⟨t, ht, o, ho, rfl, rfl⟩ := he
  obtain ⟨h1, h2, h3, h4, h5, h6⟩ := clampCursor_some _ _ ht
  exact ⟨valid_of_displayText _ _ h4 h5 ho, h1, h2, h3, h6⟩

/-- A call of `redo` that pops a snapshot and completes leaves a valid state whose
buffer is the snapshot, with the previous buffer pushed on the undo stack. -/
theorem redo_some (s s1 : MultiLineTextEditor) (out : Output) (top : List Line)
    (rest : List (List Line)) (hu : s.redoStack = top :: rest)
    (he : redo s = some (s1, out)) :
    Valid s1 ∧ s1.lines = top ∧ s1.redoStack = rest ∧ s1.undoStack = s.lines :: s.undoStack ∧
      s1.cursorCol = min s.cursorCol (CppInt.toInt ((curLine s1).length : Int)) := by
  simp only [redo, hu, Option.bind_eq_bind, Option.pure_def, Option.bind_eq_some,
    Option.some.injEq, Prod.mk.injEq] at he
  obtain ⟨t, ht, o, ho, rfl, rfl⟩ := he
  obtain ⟨h1, h2, h3, h4, h5, h6⟩ := clampCursor_some _ _ ht
  exact ⟨valid_of_displayText _ _ h4 h5 ho, h1, h3, h2, h6⟩

/-- The call `undo` with an empty undo stack only renders. -/
theorem undo_nil (s : MultiLineTextEditor) (hu : s.undoStack = []) (h : Valid s) :
    ∃ out, undo s = some (s, out) ∧ displayText s = some out := by
  obtain ⟨out, hout⟩ := displayText_isSome _ h
  exact ⟨out, by simp [undo, hu, hout], hout⟩

/-- The call `redo` with an empty redo stack only renders. -/
theorem redo_nil (s : MultiLineTextEditor) (hu : s.redoStack = []) (h : Valid s) :
    ∃ out, redo s = some (s, out) ∧ displayText s = some out := by
  obtain ⟨out, hout⟩ := displayText_isSome _ h
  exact ⟨out, by simp [redo, hu, hout], hout⟩


/-- The loop of `insertMultipleLines`, when it runs to its end, adds one line per text
and advances the row once per text. -/
theorem insertLoop_length : ∀ (texts lines : List Line) (it : Nat) (row : Int)
    (lines1 : List Line) (it1 : Nat) (row1 : Int),
    insertLoop texts lines it row = some (lines1, it1, row1) →
    lines1.length = lines.length + texts.length ∧ row1 = row + (texts.length : Int) := by
  intro texts
  induction texts with
  | nil =>
    intro lines it row lines1 it1 row1 h
    simp [insertLoop] at h
    obtain ⟨h1, _, h3⟩ := h
    subst h1 h3
    simp
  | cons t rest ih =>
    intro lines it row lines1 it1 row1 h
    by_cases hit : it < lines.length
    · simp [insertLoop, CppList.next, hit] at h
      obtain ⟨h1, h2⟩ := ih _ _ _ _ _ _ h
      refine ⟨?_, ?_⟩
      · rw [h1]
        simp [CppList.insert]
        omega
      · rw [h2]; simp only [List.length_cons]; push_cast; omega
    · simp [insertLoop, CppList.next, hit] at h

/-- A call of `insertMultipleLines` that completes leaves a valid state, has pushed the
previous buffer and has emptied the redo stack. -/
theorem insertMultipleLines_some (texts : List Line) (s s1 : MultiLineTextEditor)
    (out : Output) (h : Valid s) (he : insertMultipleLines texts s = some (s1, out)) :
    Valid s1 ∧ s1.undoStack = s.lines :: s.undoStack ∧ s1.redoStack = [] ∧
      s1.lines.length = s.lines.length + texts.length + 1 ∧
      s1.cursorRow = s.cursorRow + (texts.length : Int) + 1 ∧ s1.cursorCol = 0 := by
  obtain ⟨hl, ⟨hr0, hr1⟩, hc0, hc1⟩ := h
  have hd := deref_curLine s hr0 hr1
  simp only [insertMultipleLines, saveState, getIterator, hr0, hr1.le, and_self, if_true, hd,
    CppString.substr, CppString.erase, CppString.position, hc0, hc1, Option.bind_eq_bind,
    Option.some_bind, Option.map_some', Option.pure_def, Option.bind_eq_some] at he
  obtain ⟨⟨lines1, it1, row1⟩, hloop, it2, hnext, out1, _, hres⟩ := he
  obtain ⟨hlen, hrow⟩ := insertLoop_length _ _ _ _ _ _ _ hloop
  simp only [Option.some.injEq, Prod.mk.injEq] at hres
  obtain ⟨hs, _⟩ := hres
  subst hs
  have hlen2 : (CppList.insert lines1 it2 (List.drop s.cursorCol.toNat (curLine s))).length =
      s.lines.length + texts.length + 1 := by
    simp only [CppList.next] at hnext
    split at hnext
    · simp only [Option.some.injEq] at hnext
      subst hnext
      simp only [CppList.insert, List.length_append, List.length_take, List.length_cons,
        List.length_drop, hlen, List.length_set] at *
      omega
    · simp at hnext
  refine ⟨⟨?_, ⟨?_, ?_⟩, le_refl _, ?_⟩, rfl, rfl, hlen2, ?_, rfl⟩
  · simp only [hlen2]; omega
  · simp only [hrow]; omega
  · simp only [hrow, hlen2]; push_cast; omega
  · simp
  · simp only [hrow]


/-- In every state whatever, a call of `moveLeft` that completes changes neither the
buffer nor a stack. -/
theorem moveLeft_frame (s s1 : MultiLineTextEditor) (out : Output)
    (he : moveLeft s = some (s1, out)) :
    s1.lines = s.lines ∧ s1.undoStack = s.undoStack ∧ s1.redoStack = s.redoStack := by
  unfold moveLeft at he
  by_cases hc : s.cursorCol > 0
  · simp only [hc, if_true, Option.pure_def, Option.bind_eq_bind, Option.some_bind,
      Option.bind_eq_some, Option.some.injEq, Prod.mk.injEq] at he
    obtain ⟨o, _, h2, _⟩ := he
    subst h2
    exact ⟨rfl, rfl, rfl⟩
  · by_cases hr : s.cursorRow > 0
    · simp only [hc, hr, if_true, if_false, Option.pure_def, Option.bind_eq_bind, Option.some_bind,
        Option.bind_eq_some, Option.some.injEq, Prod.mk.injEq] at he
      obtain ⟨it, _, cur, _, o, _, h2, _⟩ := he
      subst h2
      exact ⟨rfl, rfl, rfl⟩
    · simp only [hc, hr, if_false, Option.pure_def, Option.bind_eq_bind, Option.some_bind,
        Option.bind_eq_some, Option.some.injEq, Prod.mk.injEq] at he
      obtain ⟨o, _, h2, _⟩ := he
      subst h2
      exact ⟨rfl, rfl, rfl⟩

/-- In every state whatever, a call of `moveRight` that completes changes neither the
buffer nor a stack. -/
theorem moveRight_frame (s s1 : MultiLineTextEditor) (out : Output)
    (he : moveRight s = some (s1, out)) :
    s1.lines = s.lines ∧ s1.undoStack = s.undoStack ∧ s1.redoStack = s.redoStack := by
  unfold moveRight at he
  simp only [Option.bind_eq_bind, Option.bind_eq_some] at he
  obtain ⟨it, _, cur, _, he⟩ := he
  cases hc : CppString.ltSize s.cursorCol cur.length with
  | true =>
    simp only [hc, if_true, Option.pure_def, Option.bind_eq_bind, Option.some_bind,
      Option.bind_eq_some, Option.some.injEq, Prod.mk.injEq] at he
    obtain ⟨col, _, o, _, h2, _⟩ := he
    subst h2
    exact ⟨rfl, rfl, rfl⟩
  | false =>
    cases hr : CppString.ltSizePred s.cursorRow s.lines.length with
    | true =>
      simp only [hc, hr, Bool.false_eq_true, if_false, if_true, Option.pure_def,
        Option.bind_eq_bind, Option.some_bind, Option.bind_eq_some, Option.some.injEq,
        Prod.mk.injEq] at he
      obtain ⟨o, _, h2, _⟩ := he
      subst h2
      exact ⟨rfl, rfl, rfl⟩
    | false =>
      simp only [hc, hr, Bool.false_eq_true, if_false, Option.pure_def,
        Option.bind_eq_bind, Option.some_bind, Option.bind_eq_some, Option.some.injEq,
        Prod.mk.injEq] at he
      obtain ⟨o, _, h2, _⟩ := he
      subst h2
      exact ⟨rfl, rfl, rfl⟩

/-- In every state whatever, a call of `moveUp` that completes changes neither the
buffer nor a stack. -/
theorem moveUp_frame (s s1 : MultiLineTextEditor) (out : Output)
    (he : moveUp s = some (s1, out)) :
    s1.lines = s.lines ∧ s1.undoStack = s.undoStack ∧ s1.redoStack = s.redoStack := by
  unfold moveUp at he
  by_cases hr : s.cursorRow > 0
  · simp only [hr, if_true, Option.pure_def, Option.bind_eq_bind, Option.some_bind,
      Option.bind_eq_some, Option.some.injEq, Prod.mk.injEq] at he
    obtain ⟨it, _, cur, _, o, _, h2, _⟩ := he
    subst h2
    exact ⟨rfl, rfl, rfl⟩
  · simp only [hr, if_false, Option.pure_def, Option.bind_eq_bind, Option.some_bind,
      Option.bind_eq_some, Option.some.injEq, Prod.mk.injEq] at he
    obtain ⟨o, _, h2, _⟩ := he
    subst h2
    exact ⟨rfl, rfl, rfl⟩

/-- In every state whatever, a call of `moveDown` that completes changes neither the
buffer nor a stack. -/
theorem moveDown_frame (s s1 : MultiLineTextEditor) (out : Output)
    (he : moveDown s = some (s1, out)) :
    s1.lines = s.lines ∧ s1.undoStack = s.undoStack ∧ s1.redoStack = s.redoStack := by
  unfold moveDown at he
  cases hr : CppString.ltSizePred s.cursorRow s.lines.length with
  | true =>
    simp only [hr, if_true, Option.pure_def, Option.bind_eq_bind, Option.some_bind,
      Option.bind_eq_some, Option.some.injEq, Prod.mk.injEq] at he
    obtain ⟨it, _, cur, _, o, _, h2, _⟩ := he
    subst h2
    exact ⟨rfl, rfl, rfl⟩
  | false =>
    simp only [hr, Bool.false_eq_true, if_false, Option.pure_def, Option.bind_eq_bind,
      Option.some_bind, Option.bind_eq_some, Option.some.injEq, Prod.mk.injEq] at he
    obtain ⟨o, _, h2, _⟩ := he
    subst h2
    exact ⟨rfl, rfl, rfl⟩
end MultiLineTextEditor

/-! ## Every call preserves the invariant -/

namespace MultiLineTextEditor

/-- A call that reaches `saveState` and completes leaves a valid state whose undo stack
is the previous one with the previous buffer pushed, and an empty redo stack. -/
theorem apply_takesSnapshot (op : Op) (s s1 : MultiLineTextEditor) (out : Output)
    (h : Valid s) (ht : takesSnapshot op s = true) (he : op.apply s = some (s1, out)) :
    Valid s1 ∧ s1.undoStack = s.lines :: s.undoStack ∧ s1.redoStack = [] := by
  cases op with
  | insert text =>
    obtain ⟨hv, hu, hr, _⟩ := insert_some text s s1 out h he
    exact ⟨hv, hu, hr⟩
  | insertMultipleLines texts =>
    obtain ⟨hv, hu, hr, _⟩ := insertMultipleLines_some texts s s1 out h he
    exact ⟨hv, hu, hr⟩
  | newLine =>
    obtain ⟨t, o, h1, hv, _, _, _, hu, hr⟩ := newLine_eq s h
    simp only [Op.apply, h1, Option.some.injEq, Prod.mk.injEq] at he
    obtain ⟨rfl, _⟩ := he
    exact ⟨hv, hu, hr⟩
  | deleteChar =>
    simp only [takesSnapshot, CppString.ltSize, decide_eq_true_eq] at ht
    obtain ⟨t, o, h1, hv, _, _, _, hu, hr⟩ := deleteChar_eq s h ht.2
    simp only [Op.apply, h1, Option.some.injEq, Prod.mk.injEq] at he
    obtain ⟨rfl, _⟩ := he
    exact ⟨hv, hu, hr⟩
  | moveLeft => simp [takesSnapshot] at ht
  | moveRight => simp [takesSnapshot] at ht
  | moveUp => simp [takesSnapshot] at ht
  | moveDown => simp [takesSnapshot] at ht
  | undo => simp [takesSnapshot] at ht
  | redo => simp [takesSnapshot] at ht

/-- Every call that completes preserves the invariant of the object. -/
theorem apply_inv (op : Op) (s s1 : MultiLineTextEditor) (out : Output)
    (h : Inv s) (he : op.apply s = some (s1, out)) : Inv s1 := by
  obtain ⟨hv, hu, hr⟩ := h
  have hpush : ∀ snap ∈ s.lines :: s.undoStack, 1 ≤ snap.length := by
    intro snap hs
    rcases List.mem_cons.1 hs with rfl | hs
    · exact hv.1
    · exact hu _ hs
  have hpushr : ∀ snap ∈ s.lines :: s.redoStack, 1 ≤ snap.length := by
    intro snap hs
    rcases List.mem_cons.1 hs with rfl | hs
    · exact hv.1
    · exact hr _ hs
  by_cases ht : takesSnapshot op s = true
  · obtain ⟨hv1, hu1, hr1⟩ := apply_takesSnapshot op s s1 out hv ht he
    refine ⟨hv1, ?_, ?_⟩
    · rw [hu1]; exact hpush
    · rw [hr1]; simp
  · cases op with
    | insert text => simp [takesSnapshot] at ht
    | insertMultipleLines texts => simp [takesSnapshot] at ht
    | newLine => simp [takesSnapshot] at ht
    | deleteChar =>
      simp only [takesSnapshot, CppString.ltSize, decide_eq_true_eq] at ht
      have h1 := deleteChar_end s hv.2.1.1 hv.2.1.2 ht
      simp only [Op.apply, h1, Option.some.injEq, Prod.mk.injEq] at he
      obtain ⟨rfl, _⟩ := he
      exact ⟨hv, hu, hr⟩
    | moveLeft =>
      obtain ⟨_, h2, h3⟩ := moveLeft_frame s s1 out he
      exact ⟨moveLeft_some s s1 out hv he, by rw [h2]; exact hu, by rw [h3]; exact hr⟩
    | moveRight =>
      obtain ⟨_, h2, h3⟩ := moveRight_frame s s1 out he
      exact ⟨moveRight_some s s1 out hv he, by rw [h2]; exact hu, by rw [h3]; exact hr⟩
    | moveUp =>
      obtain ⟨_, h2, h3⟩ := moveUp_frame s s1 out he
      exact ⟨moveUp_some s s1 out hv he, by rw [h2]; exact hu, by rw [h3]; exact hr⟩
    | moveDown =>
      obtain ⟨_, h2, h3⟩ := moveDown_frame s s1 out he
      exact ⟨moveDown_some s s1 out hv he, by rw [h2]; exact hu, by rw [h3]; exact hr⟩
    | undo =>
      cases hst : s.undoStack with
      | nil =>
        obtain ⟨o, h1, _⟩ := undo_nil s hst hv
        simp only [Op.apply, h1, Option.some.injEq, Prod.mk.injEq] at he
        obtain ⟨rfl, _⟩ := he
        exact ⟨hv, hu, hr⟩
      | cons top rest =>
        obtain ⟨hv1, _, hu1, hr1, _⟩ := undo_some s s1 out top rest hst he
        refine ⟨hv1, ?_, ?_⟩
        · rw [hu1]; intro snap hs; exact hu snap (by simp [hst, hs])
        · rw [hr1]; exact hpushr
    | redo =>
      cases hst : s.redoStack with
      | nil =>
        obtain ⟨o, h1, _⟩ := redo_nil s hst hv
        simp only [Op.apply, h1, Option.some.injEq, Prod.mk.injEq] at he
        obtain ⟨rfl, _⟩ := he
        exact ⟨hv, hu, hr⟩
      | cons top rest =>
        obtain ⟨hv1, _, hr1, hu1, _⟩ := redo_some s s1 out top rest hst he
        refine ⟨hv1, ?_, ?_⟩
        · rw [hu1]; exact hpush
        · rw [hr1]; intro snap hs; exact hr snap (by simp [hst, hs])

/-- The invariant holds after every sequence of calls that completes. -/
theorem run_inv : ∀ (ops : List Op) (s s1 : MultiLineTextEditor),
    Inv s → run ops s = some s1 → Inv s1 := by
  intro ops
  induction ops with
  | nil =>
    intro s s1 h he
    simp only [run, Option.some.injEq] at he
    exact he ▸ h
  | cons op rest ih =>
    intro s s1 h he
    simp only [run, Option.bind_eq_some] at he
    obtain ⟨⟨t, o⟩, h1, h2⟩ := he
    exact ih t s1 (apply_inv op s t o h h1) h2

theorem init_inv : Inv init := by decide

end MultiLineTextEditor

/-! ## Which calls complete -/

namespace MultiLineTextEditor

/-- The loop of `insertMultipleLines` runs to its end when the lines from `it` on are at
least as many as the texts. -/
theorem insertLoop_some : ∀ (texts lines : List Line) (it : Nat) (row : Int),
    it + texts.length ≤ lines.length →
    ∃ lines1, insertLoop texts lines it row =
      some (lines1, it + 2 * texts.length, row + (texts.length : Int)) := by
  intro texts
  induction texts with
  | nil => intro lines it row _; exact ⟨lines, by simp [insertLoop]⟩
  | cons t rest ih =>
    intro lines it row h
    simp only [List.length_cons] at h
    have hit : it < lines.length := by omega
    obtain ⟨lines1, h1⟩ := ih (CppList.insert lines (it + 1) t) (it + 1 + 1) (row + 1) (by
      simp only [CppList.insert, List.length_append, List.length_take, List.length_cons,
        List.length_drop]
      omega)
    refine ⟨lines1, ?_⟩
    simp only [insertLoop, CppList.next, hit, if_true, Option.bind_eq_bind, Option.some_bind, h1,
      List.length_cons, Option.some.injEq, Prod.mk.injEq, true_and]
    constructor
    · omega
    · push_cast; omega

/-- The loop of `insertMultipleLines` steps the past-the-end iterator when the texts
outnumber the lines from `it` on. -/
theorem insertLoop_none : ∀ (texts lines : List Line) (it : Nat) (row : Int),
    it ≤ lines.length → lines.length < it + texts.length →
    insertLoop texts lines it row = none := by
  intro texts
  induction texts with
  | nil => intro lines it row h0 h; simp only [List.length_nil] at h; omega
  | cons t rest ih =>
    intro lines it row h0 h
    simp only [List.length_cons] at h
    by_cases hit : it < lines.length
    · have := ih (CppList.insert lines (it + 1) t) (it + 1 + 1) (row + 1) (by
        simp only [CppList.insert, List.length_append, List.length_take, List.length_cons,
          List.length_drop]
        omega) (by
        simp only [CppList.insert, List.length_append, List.length_take, List.length_cons,
          List.length_drop]
        omega)
      simp only [insertLoop, CppList.next, hit, if_true, Option.bind_eq_bind, Option.some_bind,
        this]
    · simp [insertLoop, CppList.next, hit]

/-- On a valid state `insertMultipleLines` completes exactly when the buffer has more
lines below the cursor row than there are texts, or as many. -/
theorem insertMultipleLines_isSome_iff (texts : List Line) (s : MultiLineTextEditor)
    (h : Valid s) :
    (∃ r, insertMultipleLines texts s = some r) ↔
      s.cursorRow + (texts.length : Int) < (s.lines.length : Int) := by
  obtain ⟨hl, ⟨hr0, hr1⟩, hc0, hc1⟩ := h
  have hd := deref_curLine s hr0 hr1
  have hlt : s.cursorRow.toNat < s.lines.length := by omega
  have hunf : insertMultipleLines texts s =
      (insertLoop texts (s.lines.set s.cursorRow.toNat ((curLine s).take s.cursorCol.toNat))
        s.cursorRow.toNat s.cursorRow).bind fun p =>
        (CppList.next p.1 p.2.1).bind fun it =>
          (displayText (MultiLineTextEditor.mk
            (CppList.insert p.1 it ((curLine s).drop s.cursorCol.toNat)) (p.2.2 + 1) 0
            (s.lines :: s.undoStack) [])).bind fun out =>
            some (MultiLineTextEditor.mk
              (CppList.insert p.1 it ((curLine s).drop s.cursorCol.toNat)) (p.2.2 + 1) 0
              (s.lines :: s.undoStack) [], out) := by
    simp only [insertMultipleLines, saveState, getIterator, hr0, hr1.le, and_self, if_true, hd,
      CppString.substr, CppString.erase, CppString.position, hc0, hc1, Option.bind_eq_bind,
      Option.some_bind, Option.map_some', Option.pure_def]
  constructor
  · rintro ⟨⟨s1, out⟩, he⟩
    by_contra hcon
    rw [hunf] at he
    by_cases hk : s.lines.length < s.cursorRow.toNat + texts.length
    · rw [insertLoop_none _ _ _ _ (by simp only [List.length_set]; omega)
        (by simp only [List.length_set]; omega)] at he
      simp at he
    · obtain ⟨lines1, h1⟩ := insertLoop_some texts
        (s.lines.set s.cursorRow.toNat ((curLine s).take s.cursorCol.toNat))
        s.cursorRow.toNat s.cursorRow (by simp only [List.length_set]; omega)
      obtain ⟨hlen, _⟩ := insertLoop_length _ _ _ _ _ _ _ h1
      simp only [List.length_set] at hlen
      have hnx : CppList.next lines1 (s.cursorRow.toNat + 2 * texts.length) = none := by
        simp only [CppList.next, hlen, ite_eq_right_iff]
        intro hh
        omega
      simp [h1, hnx] at he
  · intro hk
    obtain ⟨lines1, h1⟩ := insertLoop_some texts
      (s.lines.set s.cursorRow.toNat ((curLine s).take s.cursorCol.toNat))
      s.cursorRow.toNat s.cursorRow (by simp only [List.length_set]; omega)
    obtain ⟨hlen, _⟩ := insertLoop_length _ _ _ _ _ _ _ h1
    simp only [List.length_set] at hlen
    have hnx : CppList.next lines1 (s.cursorRow.toNat + 2 * texts.length) =
        some (s.cursorRow.toNat + 2 * texts.length + 1) := by
      simp only [CppList.next, hlen, ite_eq_left_iff]
      intro hh
      omega
    have hv : Valid (MultiLineTextEditor.mk
        (CppList.insert lines1 (s.cursorRow.toNat + 2 * texts.length + 1)
          ((curLine s).drop s.cursorCol.toNat))
        (s.cursorRow + (texts.length : Int) + 1) 0 (s.lines :: s.undoStack) []) := by
      refine ⟨?_, ⟨?_, ?_⟩, le_refl _, ?_⟩
      · simp only [CppList.insert, List.length_append, List.length_take, List.length_cons,
          List.length_drop, hlen]
        omega
      · simp only; omega
      · simp only [CppList.insert, List.length_append, List.length_take, List.length_cons,
          List.length_drop, hlen]
        push_cast
        omega
      · simp
    obtain ⟨out, hout⟩ := displayText_isSome _ hv
    exact ⟨_, by rw [hunf]; simp only [h1, hnx, Option.some_bind, hout]; rfl⟩

/-- On a state satisfying the invariant whose buffer and snapshots have sizes of type
`int`, every call completes, except for an `insert` whose new column is no value of `int`
and an `insertMultipleLines` with at least as many texts as lines below the cursor row. -/
theorem apply_total (op : Op) (s : MultiLineTextEditor) (h : Inv s)
    (hs : IntSized s.lines) (hsu : ∀ snap ∈ s.undoStack, IntSized snap)
    (hsr : ∀ snap ∈ s.redoStack, IntSized snap)
    (hi : ∀ text, op = Op.insert text → s.cursorCol + (text.length : Int) ≤ 2147483647)
    (hd : ∀ texts, op = Op.insertMultipleLines texts →
      s.cursorRow + (texts.length : Int) < (s.lines.length : Int)) :
    ∃ s1 out, op.apply s = some (s1, out) := by
  obtain ⟨hv, hu, hr⟩ := h
  cases op with
  | insert text =>
    obtain ⟨s1, out, h1, _⟩ := insert_eq text s hv (hi text rfl)
    exact ⟨s1, out, h1⟩
  | insertMultipleLines texts =>
    obtain ⟨⟨s1, out⟩, h1⟩ := (insertMultipleLines_isSome_iff texts s hv).2 (hd texts rfl)
    exact ⟨s1, out, h1⟩
  | deleteChar =>
    by_cases hc : s.cursorCol < ((curLine s).length : Int)
    · obtain ⟨s1, out, h1, _⟩ := deleteChar_eq s hv hc
      exact ⟨s1, out, h1⟩
    · exact ⟨s, _, deleteChar_end s hv.2.1.1 hv.2.1.2 (fun hh => hc hh.2)⟩
  | moveLeft =>
    obtain ⟨out, h1, _⟩ := moveLeft_eq s hv hs.2
    exact ⟨_, out, h1⟩
  | moveRight =>
    obtain ⟨out, h1, _⟩ := moveRight_eq s hv hs.2
    exact ⟨_, out, h1⟩
  | moveUp =>
    obtain ⟨out, h1, _⟩ := moveUp_eq s hv hs.2
    exact ⟨_, out, h1⟩
  | moveDown =>
    obtain ⟨out, h1, _⟩ := moveDown_eq s hv hs.2
    exact ⟨_, out, h1⟩
  | newLine =>
    obtain ⟨s1, out, h1, _⟩ := newLine_eq s hv
    exact ⟨s1, out, h1⟩
  | undo =>
    cases hst : s.undoStack with
    | nil =>
      obtain ⟨o, h1, _⟩ := undo_nil s hst hv
      exact ⟨s, o, h1⟩
    | cons top rest =>
      obtain ⟨t, o, h1, _⟩ := undo_cons s top rest hst (hu top (by simp [hst]))
        (hsu top (by simp [hst])) hv.2.1.1 hv.2.2.1
      exact ⟨t, o, h1⟩
  | redo =>
    cases hst : s.redoStack with
    | nil =>
      obtain ⟨o, h1, _⟩ := redo_nil s hst hv
      exact ⟨s, o, h1⟩
    | cons top rest =>
      obtain ⟨t, o, h1, _⟩ := redo_cons s top rest hst (hr top (by simp [hst]))
        (hsr top (by simp [hst])) hv.2.1.1 hv.2.2.1
      exact ⟨t, o, h1⟩

end MultiLineTextEditor

/-! ## Calls that do not complete: lengths beyond the range of `int` -/

namespace MultiLineTextEditor

/-- A line with a first character has the position 1. -/
theorem one_le_length_cons (c : Char) (l : Line) : (1 : Int) ≤ ((c :: l).length : Int) := by
  rw [List.length_cons]
  push_cast
  omega

/-- A one-line buffer with the cursor on a position of the line is valid. -/
theorem valid_one_line (l : Line) (c : Int) (u r : List (List Line)) (h0 : 0 ≤ c)
    (h1 : c ≤ (l.length : Int)) : Valid (MultiLineTextEditor.mk [l] 0 c u r) :=
  ⟨by simp, ⟨le_refl _, by simp⟩, h0, by simpa [curLine] using h1⟩

/-- A two-line buffer with the cursor at the start of the second line is valid. -/
theorem valid_second_line (l1 l2 : Line) (u r : List (List Line)) :
    Valid (MultiLineTextEditor.mk [l1, l2] 1 0 u r) :=
  ⟨by simp, ⟨by simp, by simp⟩, le_refl _, by simp⟩

/-- A one-line buffer with the cursor on a position of the line and one snapshot of one
line on the undo stack satisfies the invariant. -/
theorem inv_one_snapshot (cur l : Line) (c : Int) (h0 : 0 ≤ c) (h1 : c ≤ (cur.length : Int)) :
    Inv (MultiLineTextEditor.mk [cur] 0 c [[l]] []) := by
  refine ⟨valid_one_line cur c _ _ h0 h1, ?_, ?_⟩
  · intro snap hs
    have : snap = [l] := by simpa using hs
    rw [this]
    exact le_refl _
  · intro snap hs
    exact absurd hs (List.not_mem_nil _)

/-- When the new column of `insert` lies from 2^31 up to 2^32 - 1 it converts to a
negative `int`, and `displayText` throws on it. -/
theorem insert_throws (text : Line) (s : MultiLineTextEditor) (h : Valid s)
    (h0 : 2147483648 ≤ s.cursorCol + (text.length : Int))
    (h1 : s.cursorCol + (text.length : Int) ≤ 4294967295) :
    insert text s = none := by
  rw [insert_render text s h]
  obtain ⟨hl, ⟨hr0, hr1⟩, _⟩ := h
  refine render_eq_none _ hr0 (by simpa using hr1) ?_
  have := toInt_neg _ h0 h1
  simp only [not_and]
  intro hc
  omega

/-- When `moveLeft` wraps onto a line of 2^31 up to 2^32 - 1 characters the length
converts to a negative `int`, and `displayText` throws on it. -/
theorem moveLeft_throws (s : MultiLineTextEditor) (h : Valid s) (hc : s.cursorCol = 0)
    (hr : 0 < s.cursorRow)
    (h0 : 2147483648 ≤ (s.lines.getD (s.cursorRow - 1).toNat []).length)
    (h1 : (s.lines.getD (s.cursorRow - 1).toNat []).length ≤ 4294967295) :
    moveLeft s = none := by
  rw [moveLeft_render s h]
  obtain ⟨hl, ⟨hr0, hr1⟩, _⟩ := h
  have hc1 : ¬ s.cursorCol > 0 := by omega
  have hr2 : s.cursorRow > 0 := hr
  simp only [hc1, hr2, if_true, if_false]
  refine render_eq_none _ (by simp only; omega) (by simp only; omega) ?_
  have := toInt_neg ((s.lines.getD (s.cursorRow - 1).toNat []).length : Int) (by omega) (by omega)
  simp only [not_and]
  intro hcol
  omega

/-- When `moveUp` goes onto a line of 2^31 up to 2^32 - 1 characters the column is
clamped to a negative `int`, and `displayText` throws on it. -/
theorem moveUp_throws (s : MultiLineTextEditor) (h : Valid s) (hr : 0 < s.cursorRow)
    (h0 : 2147483648 ≤ (s.lines.getD (s.cursorRow - 1).toNat []).length)
    (h1 : (s.lines.getD (s.cursorRow - 1).toNat []).length ≤ 4294967295) :
    moveUp s = none := by
  rw [moveUp_render s h]
  obtain ⟨hl, ⟨hr0, hr1⟩, _⟩ := h
  have hr2 : s.cursorRow > 0 := hr
  simp only [hr2, if_true]
  refine render_eq_none _ (by simp only; omega) (by simp only; omega) ?_
  have := toInt_neg ((s.lines.getD (s.cursorRow - 1).toNat []).length : Int) (by omega) (by omega)
  simp only [not_and]
  intro hcol
  omega

/-- At the column `INT_MAX` inside a line the increment of `moveRight` overflows. -/
theorem moveRight_overflows (s : MultiLineTextEditor) (h : Valid s)
    (hc : s.cursorCol = 2147483647) (hlt : s.cursorCol < ((curLine s).length : Int)) :
    moveRight s = none := by
  rw [moveRight_render s h]
  simp only [hlt, if_true]
  have : CppInt.checked (s.cursorCol + 1) = none := by
    simp only [CppInt.checked, hc]
    decide
  rw [this]
  rfl

/-- When `undo` restores a snapshot of one line of 2^31 up to 2^32 - 1 characters, the
column is clamped to a negative `int`, and `displayText` throws on it. -/
theorem undo_throws (s : MultiLineTextEditor) (l : Line) (rest : List (List Line))
    (hu : s.undoStack = [l] :: rest) (h0 : 2147483648 ≤ l.length) (h1 : l.length ≤ 4294967295) :
    undo s = none := by
  cases he : undo s with
  | none => rfl
  | some r =>
    obtain ⟨s1, out⟩ := r
    obtain ⟨hv, hl, _, _, hc⟩ := undo_some s s1 out [l] rest hu he
    have hcur : curLine s1 = l := by
      obtain ⟨_, ⟨hr0, hr1⟩, _⟩ := hv
      rw [hl] at hr1
      simp only [List.length_cons, List.length_nil] at hr1
      have : s1.cursorRow.toNat = 0 := by omega
      simp [curLine, hl, this]
    rw [hcur] at hc
    have := toInt_neg (l.length : Int) (by omega) (by omega)
    have := hv.2.2.1
    omega

end MultiLineTextEditor

/-! ## The properties the specification states -/

namespace MultiLineTextEditor

/-- Claim C4, the code at a reachable input.  On the freshly constructed editor, whose
buffer has one line, insertMultipleLines(["X"]) steps the past-the-end iterator: the call
has no defined result, and so has every sequence of calls that starts with it; nothing is
guaranteed of the buffer after it, where the claim has a buffer of at least one line
after every sequence of operations. -/
theorem buffer_undefined_after_insertMultipleLines :
    1 ≤ init.lines.length ∧
    (Op.insertMultipleLines ["X".toList]).apply init = none ∧
    ∀ rest : List Op, run (Op.insertMultipleLines ["X".toList] :: rest) init = none := by
  have h : (Op.insertMultipleLines ["X".toList]).apply init = none := by decide
  refine ⟨by decide, h, ?_⟩
  intro rest
  simp only [run, h, Option.none_bind]

/-- The buffer invariant on the runs that complete: the freshly constructed editor has
one line, and after every sequence of calls that completes the buffer has at least one
line, as has every snapshot held on the undo stack and on the redo stack. -/
theorem buffer_never_empty (ops : List Op) (s : MultiLineTextEditor)
    (hrun : run ops init = some s) :
    1 ≤ init.lines.length ∧ 1 ≤ s.lines.length ∧
      (∀ snap ∈ s.undoStack, 1 ≤ snap.length) ∧ (∀ snap ∈ s.redoStack, 1 ≤ snap.length) := by
  obtain ⟨hv, hu, hr⟩ := run_inv ops init s init_inv hrun
  exact ⟨by decide, hv.1, hu, hr⟩

/-- A run over every kind of call, to which the theorem applies. -/
theorem buffer_never_empty_witness :
    ∃ s, run [Op.insert "ab".toList, Op.newLine, Op.insertMultipleLines [], Op.moveUp,
        Op.moveLeft, Op.deleteChar, Op.moveRight, Op.moveDown, Op.undo, Op.undo, Op.redo]
        init = some s ∧
      1 ≤ s.lines.length ∧
      (∀ snap ∈ s.undoStack, 1 ≤ snap.length) ∧ (∀ snap ∈ s.redoStack, 1 ≤ snap.length) :=
  ⟨_, rfl, (buffer_never_empty [Op.insert "ab".toList, Op.newLine, Op.insertMultipleLines [],
    Op.moveUp, Op.moveLeft, Op.deleteChar, Op.moveRight, Op.moveDown, Op.undo, Op.undo,
    Op.redo] _ rfl).2⟩

/-- Claim C5, as stated, fails beyond the range of `int`: on the fresh editor insert of a
text of 2^31 - 1 characters returns with the cursor at (0, INT_MAX), and insert("a") after
it sets the column to the sum converted to `int`, -2^31, which is no position of the line,
and does not return: `displayText` throws on the negative column. -/
theorem cursor_invalid_after_second_insert :
    ∃ s1, run [Op.insert (List.replicate 2147483647 'a')] init = some s1 ∧
      s1.cursorCol = 2147483647 ∧
      (∃ x, insert ['a'] s1 = render x ∧ x.cursorCol = -2147483648 ∧ render x = none) ∧
      run [Op.insert (List.replicate 2147483647 'a'), Op.insert ['a']] init = none := by
  have hlen : ((List.replicate 2147483647 'a').length : Int) = 2147483647 := by
    rw [List.length_replicate]; rfl
  obtain ⟨s1, out, h1, hv1, _, _, hc, _⟩ := insert_eq (List.replicate 2147483647 'a') init
    (by decide) (by rw [hlen]; decide)
  have hc1 : s1.cursorCol = 2147483647 := by rw [hc, hlen]; rfl
  have h2 : insert ['a'] s1 = none :=
    insert_throws ['a'] s1 hv1 (by rw [hc1]; decide) (by rw [hc1]; decide)
  have h3 := insert_render ['a'] s1 hv1
  refine ⟨s1, ?_, hc1, ⟨_, h3, ?_, by rw [← h3]; exact h2⟩, ?_⟩
  · show (insert (List.replicate 2147483647 'a') init).bind (fun r => some r.1) = some s1
    rw [h1]
    rfl
  · show CppInt.toInt (s1.cursorCol + ((['a'] : Line).length : Int)) = -2147483648
    rw [hc1]
    decide
  · show (insert (List.replicate 2147483647 'a') init).bind
      (fun r => (insert ['a'] r.1).bind (fun r2 => some r2.1)) = none
    rw [h1]
    show (insert ['a'] s1).bind (fun r2 => some r2.1) = none
    rw [h2]
    rfl

/-- Claim C5, amended: in the freshly constructed editor and after every sequence of
calls in which every call returns (none throws, none leaves defined behaviour), the
cursor row selects a line of the buffer and the cursor column lies between 0 and the
length of that line. -/
theorem cursor_always_valid (ops : List Op) (s : MultiLineTextEditor)
    (hrun : run ops init = some s) :
    (0 ≤ s.cursorRow ∧ s.cursorRow < (s.lines.length : Int)) ∧
      ∃ line, s.lines[s.cursorRow.toNat]? = some line ∧
        0 ≤ s.cursorCol ∧ s.cursorCol ≤ (line.length : Int) := by
  obtain ⟨⟨_, hr, hc⟩, _⟩ := run_inv ops init s init_inv hrun
  exact ⟨hr, curLine s, getElem?_getD _ _ (by omega), hc⟩

/-- The fresh editor (the empty run) and a run that ends in `undo`, where the cursor is
clamped into the restored buffer. -/
theorem cursor_always_valid_witness :
    ((0 ≤ init.cursorRow ∧ init.cursorRow < (init.lines.length : Int)) ∧
      ∃ line, init.lines[init.cursorRow.toNat]? = some line ∧
        0 ≤ init.cursorCol ∧ init.cursorCol ≤ (line.length : Int)) ∧
    ∃ s, run [Op.insert "hello".toList, Op.newLine, Op.insert "world".toList, Op.undo, Op.undo]
        init = some s ∧
      (0 ≤ s.cursorRow ∧ s.cursorRow < (s.lines.length : Int)) ∧
      ∃ line, s.lines[s.cursorRow.toNat]? = some line ∧
        0 ≤ s.cursorCol ∧ s.cursorCol ≤ (line.length : Int) :=
  ⟨cursor_always_valid [] init rfl, _, rfl,
    cursor_always_valid [Op.insert "hello".toList, Op.newLine, Op.insert "world".toList,
      Op.undo, Op.undo] _ rfl⟩


/-- Claim C6, the code at two inputs.  With the buffer "abcdef", "L1" and the cursor at
(0,3), reached from the fresh editor, insertMultipleLines(["X"]) yields "abc", "X", "L1",
"def" with the cursor at (2,0), on the line "L1": the tail is placed after the line that
followed the cursor line, where the claim has "abc", "X", "def", "L1" and the cursor on
the tail.  At the input of Scenario 5, the buffer "abcdef" with the cursor at (0,3) and the
texts "X", "Y", the second pass of the loop steps the past-the-end iterator, so the call
has no defined result. -/
theorem insertMultipleLines_misplaces_lines :
    (run [Op.insert "abcdef".toList, Op.newLine, Op.insert "L1".toList, Op.moveUp, Op.moveRight]
        init).map (fun s => (s.lines, s.cursorRow, s.cursorCol)) =
      some (["abcdef".toList, "L1".toList], 0, 3) ∧
    (run [Op.insert "abcdef".toList, Op.newLine, Op.insert "L1".toList, Op.moveUp, Op.moveRight,
        Op.insertMultipleLines ["X".toList]]
        init).map (fun s => (s.lines, s.cursorRow, s.cursorCol, curLine s)) =
      some (["abc".toList, "X".toList, "L1".toList, "def".toList], 2, 0, "L1".toList) ∧
    (run [Op.insert "abcdef".toList, Op.moveLeft, Op.moveLeft, Op.moveLeft]
        init).map (fun s => (s.lines, s.cursorRow, s.cursorCol)) =
      some (["abcdef".toList], 0, 3) ∧
    run [Op.insert "abcdef".toList, Op.moveLeft, Op.moveLeft, Op.moveLeft,
        Op.insertMultipleLines ["X".toList, "Y".toList]] init = none := by
  decide

/-- With no texts the loop of `insertMultipleLines` does nothing and the body is that of
`newLine`. -/
theorem insertMultipleLines_nil (s : MultiLineTextEditor) :
    insertMultipleLines [] s = newLine s := by
  simp only [insertMultipleLines, newLine, insertLoop, Option.bind_eq_bind, Option.some_bind]

/-- Claim C7: on every valid state newLine completes, and insertMultipleLines with an
empty list of texts completes with exactly the same result: the same buffer, cursor row
and column, undo stack and redo stack (and the same rendering). -/
theorem insertMultipleLines_empty_eq_newLine (s : MultiLineTextEditor) (h : Valid s) :
    ∃ s1 out, newLine s = some (s1, out) ∧ insertMultipleLines [] s = some (s1, out) := by
  obtain ⟨s1, out, h1, _⟩ := newLine_eq s h
  exact ⟨s1, out, h1, by rw [insertMultipleLines_nil, h1]⟩

/-- Both calls split "abcdef" at column 3 of a two-line buffer in the same way. -/
theorem insertMultipleLines_empty_eq_newLine_witness :
    Valid (MultiLineTextEditor.mk ["abcdef".toList, "L1".toList] 0 3 [] []) ∧
    ∃ s1 out,
      newLine (MultiLineTextEditor.mk ["abcdef".toList, "L1".toList] 0 3 [] []) =
        some (s1, out) ∧
      insertMultipleLines [] (MultiLineTextEditor.mk ["abcdef".toList, "L1".toList] 0 3 [] []) =
        some (s1, out) :=
  ⟨by decide, insertMultipleLines_empty_eq_newLine _ (by decide)⟩


/-- A buffer is its lines before a row, the line of that row, and the lines after it. -/
theorem lines_split (ls : List Line) (r : Nat) (h : r < ls.length) :
    ls = ls.take r ++ ls.getD r [] :: ls.drop (r + 1) := by
  have h1 : ls.getD r [] = ls[r] := by simp [List.getD, List.getElem?_eq_getElem h]
  rw [h1, ← List.drop_eq_getElem_cons h, List.take_append_drop]

/-- Claim C8, as stated, fails beyond the range of `int`: on the fresh editor insert of a
text of 2^31 characters sets the column to the converted sum, -2^31, where the claim has
col + length(text) = 2^31, and the call does not return: `displayText` throws on the
negative column. -/
theorem insert_of_long_text_throws :
    Valid init ∧
    ∃ x, insert (List.replicate 2147483648 'a') init = render x ∧
      x.cursorCol = -2147483648 ∧ render x = none := by
  have hlen : ((List.replicate 2147483648 'a').length : Int) = 2147483648 := by
    rw [List.length_replicate]; rfl
  have hv : Valid init := by decide
  have h1 := insert_render (List.replicate 2147483648 'a') init hv
  have h2 := insert_throws (List.replicate 2147483648 'a') init hv
    (by rw [hlen]; decide) (by rw [hlen]; decide)
  refine ⟨hv, _, h1, ?_, by rw [← h1]; exact h2⟩
  show CppInt.toInt (init.cursorCol + ((List.replicate 2147483648 'a').length : Int)) = _
  rw [hlen]
  decide

/-- Claim C8, amended: on every valid state with cursor (row, col) and current line L, and
for every text with col + length(text) at most INT_MAX, insert(text) completes; the line at
row becomes L[0..col] ++ text ++ L[col..], every other line and the number of lines are
unchanged, the row is unchanged and the column is col + length(text). -/
theorem insert_spec (text : Line) (s : MultiLineTextEditor) (h : Valid s)
    (hfit : s.cursorCol + (text.length : Int) ≤ 2147483647) :
    ∃ s1 out, insert text s = some (s1, out) ∧
      s.lines[s.cursorRow.toNat]? = some (curLine s) ∧
      s1.lines[s.cursorRow.toNat]? = some
        ((curLine s).take s.cursorCol.toNat ++ text ++ (curLine s).drop s.cursorCol.toNat) ∧
      (∀ i : Nat, i ≠ s.cursorRow.toNat → s1.lines[i]? = s.lines[i]?) ∧
      s1.lines.length = s.lines.length ∧
      s1.cursorRow = s.cursorRow ∧ s1.cursorCol = s.cursorCol + (text.length : Int) := by
  obtain ⟨s1, out, h1, _, hl, hr, hc, _⟩ := insert_eq text s h hfit
  have hlt : s.cursorRow.toNat < s.lines.length := by
    have := h.2.1
    omega
  refine ⟨s1, out, h1, getElem?_getD _ _ hlt, ?_, ?_, ?_, hr, hc⟩
  · rw [hl]; simp [List.getElem?_set, hlt]
  · intro i hi
    rw [hl, List.getElem?_set_ne (Ne.symm hi)]
  · rw [hl]; simp

/-- Scenario 1 of the specification: on the fresh editor insert("hello") gives the
buffer "hello" and the cursor (0,5). -/
theorem insert_spec_witness :
    Valid init ∧ init.cursorCol + (("hello".toList.length : Nat) : Int) ≤ 2147483647 ∧
    ∃ s1 out, insert "hello".toList init = some (s1, out) ∧
      s1.lines = ["hello".toList] ∧ s1.cursorRow = 0 ∧ s1.cursorCol = 5 := by
  refine ⟨by decide, by decide, ?_⟩
  obtain ⟨s1, out, h1, _, _, _, _, hr, hc⟩ :=
    insert_spec "hello".toList init (by decide) (by decide)
  have h2 : insert "hello".toList init =
      some (MultiLineTextEditor.mk ["hello".toList] 0 5 [[[]]] [],
        [header, "hello|".toList, footer]) := by decide
  rw [h2] at h1
  simp only [Option.some.injEq, Prod.mk.injEq] at h1
  obtain ⟨rfl, rfl⟩ := h1
  exact ⟨_, _, h2, rfl, hr, hc⟩

/-- Claim C9: on every valid state with cursor (row, col) and current line L, newLine
completes; the buffer, which is the lines before row, L, and the lines after row, becomes
the lines before row, L[0..col], L[col..], and the lines after row, so it has one line
more and the two new lines concatenate to L; the cursor becomes (row + 1, 0). -/
theorem newLine_spec (s : MultiLineTextEditor) (h : Valid s) :
    ∃ s1 out, newLine s = some (s1, out) ∧
      s.lines = s.lines.take s.cursorRow.toNat ++ [curLine s] ++
        s.lines.drop (s.cursorRow.toNat + 1) ∧
      s1.lines = s.lines.take s.cursorRow.toNat ++
        [(curLine s).take s.cursorCol.toNat, (curLine s).drop s.cursorCol.toNat] ++
        s.lines.drop (s.cursorRow.toNat + 1) ∧
      s1.lines[s.cursorRow.toNat]? = some ((curLine s).take s.cursorCol.toNat) ∧
      s1.lines[s.cursorRow.toNat + 1]? = some ((curLine s).drop s.cursorCol.toNat) ∧
      (curLine s).take s.cursorCol.toNat ++ (curLine s).drop s.cursorCol.toNat = curLine s ∧
      s1.lines.length = s.lines.length + 1 ∧
      s1.cursorRow = s.cursorRow + 1 ∧ s1.cursorCol = 0 := by
  obtain ⟨s1, out, h1, hv1, hl, hr, hc, _⟩ := newLine_eq s h
  have hlt : s.cursorRow.toNat < s.lines.length := by
    have := h.2.1
    omega
  have hsplit := lines_split s.lines s.cursorRow.toNat hlt
  have hlen : (s.lines.take s.cursorRow.toNat).length = s.cursorRow.toNat := by
    simp only [List.length_take]; omega
  refine ⟨s1, out, h1, ?_, hl, ?_, ?_, List.take_append_drop _ _, ?_, hr, hc⟩
  · simpa [curLine] using hsplit
  · rw [hl, List.append_assoc, List.getElem?_append_right (by omega)]
    simp [hlen]
  · rw [hl, List.append_assoc, List.getElem?_append_right (by omega)]
    simp [hlen]
  · rw [hl]
    simp only [List.length_append, List.length_take, List.length_drop, List.length_cons,
      List.length_nil]
    omega

/-- Scenario 2 of the specification: on the buffer "hello" with the cursor at (0,5)
newLine gives the buffer "hello", "" and the cursor (1,0). -/
theorem newLine_spec_witness :
    Valid (MultiLineTextEditor.mk ["hello".toList] 0 5 [[[]]] []) ∧
    ∃ s1 out, newLine (MultiLineTextEditor.mk ["hello".toList] 0 5 [[[]]] []) = some (s1, out) ∧
      s1.lines = ["hello".toList, []] ∧ s1.cursorRow = 1 ∧ s1.cursorCol = 0 := by
  refine ⟨by decide, ?_⟩
  obtain ⟨s1, out, h1, _, hl, _, _, _, _, hr, hc⟩ :=
    newLine_spec (MultiLineTextEditor.mk ["hello".toList] 0 5 [[[]]] []) (by decide)
  exact ⟨s1, out, h1, by rw [hl]; decide, by rw [hr]; decide, hc⟩

/-- Claim C10: on every valid state whose cursor column equals the length of the current
line, deleteChar returns the state it was called in (same buffer, cursor, undo stack and
redo stack: nothing is pushed, cleared or merged) and writes the one line "Nothing to
delete at this position!", which no call of displayText produces. -/
theorem deleteChar_at_end_of_line (s : MultiLineTextEditor) (h : Valid s)
    (hc : s.cursorCol = ((curLine s).length : Int)) :
    deleteChar s = some (s, [nothingToDelete]) ∧
      ∀ t : MultiLineTextEditor, displayText t ≠ some [nothingToDelete] := by
  refine ⟨deleteChar_end s h.2.1.1 h.2.1.2 (by omega), ?_⟩
  intro t ht
  have := displayText_head t _ ht
  revert this
  decide

/-- Scenario 4 of the specification: on the buffer "ab" with the cursor at (0,2)
deleteChar leaves the buffer "ab", pushes no undo entry and signals nothing to delete. -/
theorem deleteChar_at_end_of_line_witness :
    Valid (MultiLineTextEditor.mk ["ab".toList] 0 2 [[[]]] []) ∧
    deleteChar (MultiLineTextEditor.mk ["ab".toList] 0 2 [[[]]] []) =
      some (MultiLineTextEditor.mk ["ab".toList] 0 2 [[[]]] [], [nothingToDelete]) :=
  ⟨by decide, (deleteChar_at_end_of_line _ (by decide) (by decide)).1⟩


/-- Claim C11: on every valid state with cursor (row, col) and current line L with
col < length(L), deleteChar completes; the line at row becomes L[0..col] ++ L[col+1..],
which is L without its one character at offset col and so one shorter; every other line
and the number of lines are unchanged, and the cursor stays at (row, col). -/
theorem deleteChar_spec (s : MultiLineTextEditor) (h : Valid s)
    (hc : s.cursorCol < ((curLine s).length : Int)) :
    ∃ s1 out, deleteChar s = some (s1, out) ∧
      s.lines[s.cursorRow.toNat]? = some (curLine s) ∧
      s1.lines[s.cursorRow.toNat]? = some
        ((curLine s).take s.cursorCol.toNat ++ (curLine s).drop (s.cursorCol.toNat + 1)) ∧
      (∃ ch, curLine s =
        (curLine s).take s.cursorCol.toNat ++ ch :: (curLine s).drop (s.cursorCol.toNat + 1)) ∧
      ((curLine s).take s.cursorCol.toNat ++ (curLine s).drop (s.cursorCol.toNat + 1)).length + 1
        = (curLine s).length ∧
      (∀ i : Nat, i ≠ s.cursorRow.toNat → s1.lines[i]? = s.lines[i]?) ∧
      s1.lines.length = s.lines.length ∧
      s1.cursorRow = s.cursorRow ∧ s1.cursorCol = s.cursorCol := by
  obtain ⟨s1, out, h1, _, hl, hr, hcol, _⟩ := deleteChar_eq s h hc
  have hlt : s.cursorRow.toNat < s.lines.length := by
    have := h.2.1
    omega
  have hc0 := h.2.2.1
  have hclt : s.cursorCol.toNat < (curLine s).length := by omega
  refine ⟨s1, out, h1, getElem?_getD _ _ hlt, ?_, ?_, ?_, ?_, ?_, hr, hcol⟩
  · rw [hl]; simp [List.getElem?_set, hlt]
  · refine ⟨(curLine s)[s.cursorCol.toNat], ?_⟩
    rw [← List.drop_eq_getElem_cons hclt, List.take_append_drop]
  · simp only [List.length_append, List.length_take, List.length_drop]
    omega
  · intro i hi
    rw [hl, List.getElem?_set_ne (Ne.symm hi)]
  · rw [hl]; simp

/-- On the buffer "ab" with the cursor at (0,1) deleteChar removes the "b". -/
theorem deleteChar_spec_witness :
    Valid (MultiLineTextEditor.mk ["ab".toList] 0 1 [[[]]] []) ∧
    ∃ s1 out, deleteChar (MultiLineTextEditor.mk ["ab".toList] 0 1 [[[]]] []) = some (s1, out) ∧
      s1.lines = ["a".toList] ∧ s1.cursorRow = 0 ∧ s1.cursorCol = 1 := by
  refine ⟨by decide, ?_⟩
  obtain ⟨s1, out, h1, _, _, _, _, _, _, hr, hc⟩ :=
    deleteChar_spec (MultiLineTextEditor.mk ["ab".toList] 0 1 [[[]]] []) (by decide) (by decide)
  have h2 : deleteChar (MultiLineTextEditor.mk ["ab".toList] 0 1 [[[]]] []) =
      some (MultiLineTextEditor.mk ["a".toList] 0 1 [["ab".toList], [[]]] [],
        [header, "a|".toList, footer]) := by decide
  rw [h2] at h1
  simp only [Option.some.injEq, Prod.mk.injEq] at h1
  obtain ⟨rfl, rfl⟩ := h1
  exact ⟨_, _, h2, rfl, hr, hc⟩

/-- Claim C13: on a valid state undo with an empty undo stack, and redo with an empty redo
stack, complete and return the state they were called in: the same buffer, cursor row
and column, undo stack and redo stack; they only render it. -/
theorem undo_redo_on_empty_stack (s : MultiLineTextEditor) (h : Valid s) :
    (s.undoStack = [] → ∃ out, undo s = some (s, out) ∧ displayText s = some out) ∧
    (s.redoStack = [] → ∃ out, redo s = some (s, out) ∧ displayText s = some out) :=
  ⟨fun hu => undo_nil s hu h, fun hr => redo_nil s hr h⟩

/-- On the fresh editor both stacks are empty, and undo and redo return the fresh
editor. -/
theorem undo_redo_on_empty_stack_witness :
    Valid init ∧ (∃ out, undo init = some (init, out) ∧ displayText init = some out) ∧
      (∃ out, redo init = some (init, out) ∧ displayText init = some out) :=
  ⟨by decide, (undo_redo_on_empty_stack init (by decide)).1 rfl,
    (undo_redo_on_empty_stack init (by decide)).2 rfl⟩


/-- Claim C14, as stated, fails beyond the range of `int`: on the valid state with a first
line of 2^31 characters and the cursor at (1,0), moveLeft sets the column to the length
converted to `int`, a negative value, where the claim has the length, and the call does
not return: `displayText` throws on the negative column. -/
theorem moveLeft_onto_long_line_throws :
    Valid (MultiLineTextEditor.mk [List.replicate 2147483648 'a', []] 1 0 [] []) ∧
    moveLeft (MultiLineTextEditor.mk [List.replicate 2147483648 'a', []] 1 0 [] []) = none := by
  have hv := valid_second_line (List.replicate 2147483648 'a') [] [] []
  refine ⟨hv, moveLeft_throws _ hv rfl (by decide) ?_ ?_⟩
  · show 2147483648 ≤ (List.replicate 2147483648 'a').length
    rw [List.length_replicate]
  · show (List.replicate 2147483648 'a').length ≤ 4294967295
    rw [List.length_replicate]
    decide

/-- Claim C14, amended: on every valid state with cursor (row, col) whose lines all have
at most INT_MAX characters, moveLeft completes and gives
(row, col - 1) when col > 0, else (row - 1, length of line row - 1) when row > 0, else
returns the state unchanged at (0,0); moveRight completes and gives (row, col + 1) when
col is below the length of the current line, else (row + 1, 0) when row is not the last
row, else returns the state unchanged. -/
theorem moveLeft_moveRight_spec (s : MultiLineTextEditor) (h : Valid s)
    (hb : ∀ l ∈ s.lines, l.length ≤ 2147483647) :
    (∃ s1 out, moveLeft s = some (s1, out) ∧
      (0 < s.cursorCol → s1.cursorRow = s.cursorRow ∧ s1.cursorCol = s.cursorCol - 1) ∧
      (s.cursorCol = 0 → 0 < s.cursorRow → s1.cursorRow = s.cursorRow - 1 ∧
        ∃ l, s.lines[(s.cursorRow - 1).toNat]? = some l ∧ s1.cursorCol = (l.length : Int)) ∧
      (s.cursorCol = 0 → s.cursorRow = 0 → s1 = s)) ∧
    (∃ s2 out, moveRight s = some (s2, out) ∧
      (s.cursorCol < ((curLine s).length : Int) →
        s2.cursorRow = s.cursorRow ∧ s2.cursorCol = s.cursorCol + 1) ∧
      (s.cursorCol = ((curLine s).length : Int) → s.cursorRow + 1 < (s.lines.length : Int) →
        s2.cursorRow = s.cursorRow + 1 ∧ s2.cursorCol = 0) ∧
      (s.cursorCol = ((curLine s).length : Int) → s.cursorRow + 1 = (s.lines.length : Int) →
        s2 = s)) := by
  obtain ⟨o1, h1, _⟩ := moveLeft_eq s h hb
  obtain ⟨o2, h2, _⟩ := moveRight_eq s h hb
  have hr := h.2.1
  refine ⟨⟨_, o1, h1, ?_, ?_, ?_⟩, ⟨_, o2, h2, ?_, ?_, ?_⟩⟩
  · intro hc
    simp [hc]
  · intro hc hrow
    have hc1 : ¬ s.cursorCol > 0 := by omega
    simp only [hc1, if_false, hrow, gt_iff_lt, if_true, true_and]
    exact ⟨_, getElem?_getD _ _ (by omega), rfl⟩
  · intro hc hrow
    have hc1 : ¬ s.cursorCol > 0 := by omega
    have hr1 : ¬ s.cursorRow > 0 := by omega
    simp only [hc1, hr1, if_false]
  · intro hc
    simp [hc]
  · intro hc hrow
    have hc1 : ¬ s.cursorCol < ((curLine s).length : Int) := by omega
    have hr1 : s.cursorRow < (s.lines.length : Int) - 1 := by omega
    simp only [hc1, if_false, hr1, if_true, and_self]
  · intro hc hrow
    have hc1 : ¬ s.cursorCol < ((curLine s).length : Int) := by omega
    have hr1 : ¬ s.cursorRow < (s.lines.length : Int) - 1 := by omega
    simp only [hc1, hr1, if_false]

/-- The three cases of moveLeft and of moveRight on the buffer "ab", "c": a step inside
a line, the wrap across the line boundary, and the two corners, where the state is
returned unchanged (Scenario 6 of the specification). -/
theorem moveLeft_moveRight_spec_witness :
    Valid (MultiLineTextEditor.mk ["ab".toList, "c".toList] 1 0 [] []) ∧
    (∃ s1 out, moveLeft (MultiLineTextEditor.mk ["ab".toList, "c".toList] 1 0 [] []) =
        some (s1, out) ∧ s1.cursorRow = 0 ∧ s1.cursorCol = 2) ∧
    (∃ s2 out, moveRight (MultiLineTextEditor.mk ["ab".toList, "c".toList] 0 2 [] []) =
        some (s2, out) ∧ s2.cursorRow = 1 ∧ s2.cursorCol = 0) ∧
    (∃ out, moveLeft (MultiLineTextEditor.mk ["ab".toList, "c".toList] 0 0 [] []) =
        some (MultiLineTextEditor.mk ["ab".toList, "c".toList] 0 0 [] [], out)) ∧
    (∃ out, moveRight (MultiLineTextEditor.mk ["ab".toList, "c".toList] 1 1 [] []) =
        some (MultiLineTextEditor.mk ["ab".toList, "c".toList] 1 1 [] [], out)) := by
  refine ⟨by decide, ?_, ?_, ?_, ?_⟩
  · obtain ⟨s1, out, h1, _, hw, _⟩ :=
      (moveLeft_moveRight_spec (MultiLineTextEditor.mk ["ab".toList, "c".toList] 1 0 [] [])
        (by decide) (by decide)).1
    obtain ⟨hr, l, hl, hc⟩ := hw rfl (by decide)
    have hl2 : l = "ab".toList := by
      have : (["ab".toList, "c".toList] : List Line)[0]? = some l := hl
      simpa using this.symm
    exact ⟨s1, out, h1, hr, by rw [hc, hl2]; rfl⟩
  · obtain ⟨s2, out, h2, _, hw, _⟩ :=
      (moveLeft_moveRight_spec (MultiLineTextEditor.mk ["ab".toList, "c".toList] 0 2 [] [])
        (by decide) (by decide)).2
    obtain ⟨hr, hc⟩ := hw (by decide) (by decide)
    exact ⟨s2, out, h2, hr, hc⟩
  · obtain ⟨s1, out, h1, _, _, hw⟩ :=
      (moveLeft_moveRight_spec (MultiLineTextEditor.mk ["ab".toList, "c".toList] 0 0 [] [])
        (by decide) (by decide)).1
    exact ⟨out, by rw [h1, hw rfl rfl]⟩
  · obtain ⟨s2, out, h2, _, _, hw⟩ :=
      (moveLeft_moveRight_spec (MultiLineTextEditor.mk ["ab".toList, "c".toList] 1 1 [] [])
        (by decide) (by decide)).2
    exact ⟨out, by rw [h2, hw (by decide) (by decide)]⟩

/-- Claim C15, as stated, fails beyond the range of `int`: on the valid state with a first
line of 2^31 characters and the cursor at (1,0), moveUp clamps the column to the length
converted to `int`, a negative value, where the claim has min(0, length) = 0, and the
call does not return: `displayText` throws on the negative column. -/
theorem moveUp_onto_long_line_throws :
    Valid (MultiLineTextEditor.mk [List.replicate 2147483648 'b', []] 1 0 [] []) ∧
    moveUp (MultiLineTextEditor.mk [List.replicate 2147483648 'b', []] 1 0 [] []) = none := by
  have hv := valid_second_line (List.replicate 2147483648 'b') [] [] []
  refine ⟨hv, moveUp_throws _ hv (by decide) ?_ ?_⟩
  · show 2147483648 ≤ (List.replicate 2147483648 'b').length
    rw [List.length_replicate]
  · show (List.replicate 2147483648 'b').length ≤ 4294967295
    rw [List.length_replicate]
    decide

/-- Claim C15, amended: on every valid state with cursor (row, col) whose lines all have
at most INT_MAX characters, moveUp completes and gives
(row - 1, min(col, length of line row - 1)) when row > 0 and returns the state unchanged
when row = 0; moveDown completes and gives (row + 1, min(col, length of line row + 1))
when row is not the last row and returns the state unchanged when it is. -/
theorem moveUp_moveDown_spec (s : MultiLineTextEditor) (h : Valid s)
    (hb : ∀ l ∈ s.lines, l.length ≤ 2147483647) :
    (∃ s1 out, moveUp s = some (s1, out) ∧
      (0 < s.cursorRow → s1.cursorRow = s.cursorRow - 1 ∧
        ∃ l, s.lines[(s.cursorRow - 1).toNat]? = some l ∧
          s1.cursorCol = min s.cursorCol (l.length : Int)) ∧
      (s.cursorRow = 0 → s1 = s)) ∧
    (∃ s2 out, moveDown s = some (s2, out) ∧
      (s.cursorRow + 1 < (s.lines.length : Int) → s2.cursorRow = s.cursorRow + 1 ∧
        ∃ l, s.lines[(s.cursorRow + 1).toNat]? = some l ∧
          s2.cursorCol = min s.cursorCol (l.length : Int)) ∧
      (s.cursorRow + 1 = (s.lines.length : Int) → s2 = s)) := by
  obtain ⟨o1, h1, _⟩ := moveUp_eq s h hb
  obtain ⟨o2, h2, _⟩ := moveDown_eq s h hb
  have hr := h.2.1
  refine ⟨⟨_, o1, h1, ?_, ?_⟩, ⟨_, o2, h2, ?_, ?_⟩⟩
  · intro hrow
    simp only [hrow, gt_iff_lt, if_true, true_and]
    exact ⟨_, getElem?_getD _ _ (by omega), rfl⟩
  · intro hrow
    have hr1 : ¬ s.cursorRow > 0 := by omega
    simp only [hr1, if_false]
  · intro hrow
    have hr1 : s.cursorRow < (s.lines.length : Int) - 1 := by omega
    simp only [hr1, if_true, true_and]
    exact ⟨_, getElem?_getD _ _ (by omega), rfl⟩
  · intro hrow
    have hr1 : ¬ s.cursorRow < (s.lines.length : Int) - 1 := by omega
    simp only [hr1, if_false]

/-- On the buffer "abc", "d" moveDown from (0,2) clamps the column to 1, and moveUp from
(1,1) keeps it. -/
theorem moveUp_moveDown_spec_witness :
    Valid (MultiLineTextEditor.mk ["abc".toList, "d".toList] 0 2 [] []) ∧
    (∃ s2 out, moveDown (MultiLineTextEditor.mk ["abc".toList, "d".toList] 0 2 [] []) =
        some (s2, out) ∧ s2.cursorRow = 1 ∧ s2.cursorCol = 1) ∧
    (∃ s1 out, moveUp (MultiLineTextEditor.mk ["abc".toList, "d".toList] 1 1 [] []) =
        some (s1, out) ∧ s1.cursorRow = 0 ∧ s1.cursorCol = 1) := by
  refine ⟨by decide, ?_, ?_⟩
  · obtain ⟨s2, out, h2, hw, _⟩ :=
      (moveUp_moveDown_spec (MultiLineTextEditor.mk ["abc".toList, "d".toList] 0 2 [] [])
        (by decide) (by decide)).2
    obtain ⟨hr, l, hl, hc⟩ := hw (by decide)
    have hl2 : l = "d".toList := by
      have : (["abc".toList, "d".toList] : List Line)[1]? = some l := hl
      simpa using this.symm
    exact ⟨s2, out, h2, hr, by rw [hc, hl2]; rfl⟩
  · obtain ⟨s1, out, h1, hw, _⟩ :=
      (moveUp_moveDown_spec (MultiLineTextEditor.mk ["abc".toList, "d".toList] 1 1 [] [])
        (by decide) (by decide)).1
    obtain ⟨hr, l, hl, hc⟩ := hw (by decide)
    have hl2 : l = "abc".toList := by
      have : (["abc".toList, "d".toList] : List Line)[0]? = some l := hl
      simpa using this.symm
    exact ⟨s1, out, h1, hr, by rw [hc, hl2]; rfl⟩

/-- Claim C16: for every editor state, valid or not, a call of moveLeft, moveRight,
moveUp or moveDown that completes leaves the undo stack, the redo stack and the line
sequence of the buffer exactly as they were; and on a valid state whose lines have at
most INT_MAX characters the call completes. -/
theorem navigation_keeps_content_and_history (op : Op) (s : MultiLineTextEditor)
    (hop : op = Op.moveLeft ∨ op = Op.moveRight ∨ op = Op.moveUp ∨ op = Op.moveDown) :
    (∀ s1 out, op.apply s = some (s1, out) →
      s1.lines = s.lines ∧ s1.undoStack = s.undoStack ∧ s1.redoStack = s.redoStack) ∧
    (Valid s → (∀ l ∈ s.lines, l.length ≤ 2147483647) →
      ∃ s1 out, op.apply s = some (s1, out)) := by
  rcases hop with rfl | rfl | rfl | rfl
  · exact ⟨fun s1 out he => moveLeft_frame s s1 out he,
      fun h hb => (moveLeft_eq s h hb).elim fun o ho => ⟨_, o, ho.1⟩⟩
  · exact ⟨fun s1 out he => moveRight_frame s s1 out he,
      fun h hb => (moveRight_eq s h hb).elim fun o ho => ⟨_, o, ho.1⟩⟩
  · exact ⟨fun s1 out he => moveUp_frame s s1 out he,
      fun h hb => (moveUp_eq s h hb).elim fun o ho => ⟨_, o, ho.1⟩⟩
  · exact ⟨fun s1 out he => moveDown_frame s s1 out he,
      fun h hb => (moveDown_eq s h hb).elim fun o ho => ⟨_, o, ho.1⟩⟩

/-- With both stacks filled, moveDown from (0,2) on the buffer "abc", "d" changes the
cursor only. -/
theorem navigation_keeps_content_and_history_witness :
    ∃ s1 out, Op.moveDown.apply (MultiLineTextEditor.mk ["abc".toList, "d".toList] 0 2
        [[[]]] [["x".toList]]) = some (s1, out) ∧
      s1.lines = ["abc".toList, "d".toList] ∧ s1.undoStack = [[[]]] ∧
      s1.redoStack = [["x".toList]] ∧ s1.cursorRow = 1 ∧ s1.cursorCol = 1 := by
  have h := navigation_keeps_content_and_history Op.moveDown
    (MultiLineTextEditor.mk ["abc".toList, "d".toList] 0 2 [[[]]] [["x".toList]])
    (Or.inr (Or.inr (Or.inr rfl)))
  obtain ⟨s1, out, h1⟩ := h.2 (by decide) (by decide)
  obtain ⟨hl, hu, hr⟩ := h.1 s1 out h1
  refine ⟨s1, out, h1, hl, hu, hr, ?_⟩
  have h2 : Op.moveDown.apply (MultiLineTextEditor.mk ["abc".toList, "d".toList] 0 2
      [[[]]] [["x".toList]]) = some (MultiLineTextEditor.mk ["abc".toList, "d".toList] 1 1
        [[[]]] [["x".toList]], [header, "abc".toList, "d|".toList, footer]) := by decide
  rw [h2] at h1
  simp only [Option.some.injEq, Prod.mk.injEq] at h1
  obtain ⟨rfl, _⟩ := h1
  exact ⟨rfl, rfl⟩


/-- The loop of `displayText`, when it completes, prints one line per buffer line: the
line itself, or the line with the marker at the column when its counter value is the
cursor row. -/
theorem displayRows_spec (cr cc : Int) (hc0 : 0 ≤ cc) : ∀ (ls : List Line) (k : Int)
    (body : List Line), displayRows cr cc ls k = some body →
    body.length = ls.length ∧
    ∀ (i : Nat) (l : Line), ls[i]? = some l →
      body[i]? = some (if k + (i : Int) = cr then l.take cc.toNat ++ ['|'] ++ l.drop cc.toNat
        else l) := by
  intro ls
  induction ls with
  | nil =>
    intro k body he
    simp only [displayRows, Option.some.injEq] at he
    subst he
    exact ⟨rfl, by intro i l hi; simp at hi⟩
  | cons line rest ih =>
    intro k body he
    have hcount : CppString.count line cc = cc.toNat := by
      simp only [CppString.count]
      rw [if_neg (by omega)]
    by_cases hk : k = cr
    · subst hk
      simp only [displayRows, if_true, CppString.substrCount, CppString.substr,
        CppString.position, Option.bind_eq_bind, Option.pure_def, Option.bind_eq_some,
        Option.map_eq_some', Option.some.injEq] at he
      obtain ⟨left, ⟨p0, hp0, hleft⟩, right, ⟨p, hp, hright⟩, more, hmore, hbody⟩ := he
      obtain ⟨ih1, ih2⟩ := ih (k + 1) more hmore
      have hp0' : p0 = 0 := by
        split at hp0
        · simpa using hp0.symm
        · simp at hp0
      have hp' : p = cc.toNat := by
        split at hp
        · simpa using hp.symm
        · simp at hp
      subst hbody hleft hright hp0' hp'
      refine ⟨by simp [ih1], ?_⟩
      intro i l hi
      cases i with
      | zero =>
        simp only [List.getElem?_cons_zero, Option.some.injEq] at hi
        subst hi
        simp [hcount]
      | succ n =>
        simp only [List.getElem?_cons_succ] at hi ⊢
        rw [ih2 n l hi]
        have : (k + 1 + (n : Int) = k) ↔ (k + ((n + 1 : Nat) : Int) = k) := by
          push_cast; omega
        simp only [this]
    · simp only [displayRows, hk, if_false, Option.bind_eq_bind, Option.pure_def,
        Option.bind_eq_some, Option.some.injEq] at he
      obtain ⟨more, hmore, hbody⟩ := he
      obtain ⟨ih1, ih2⟩ := ih (k + 1) more hmore
      subst hbody
      refine ⟨by simp [ih1], ?_⟩
      intro i l hi
      cases i with
      | zero =>
        simp only [List.getElem?_cons_zero, Option.some.injEq] at hi
        subst hi
        simp [hk]
      | succ n =>
        simp only [List.getElem?_cons_succ] at hi ⊢
        rw [ih2 n l hi]
        have : (k + 1 + (n : Int) = cr) ↔ (k + ((n + 1 : Nat) : Int) = cr) := by
          push_cast; omega
        simp only [this]

/-- Claim C17: on every valid state with cursor (row, col) displayText completes and
prints the header line, then one display line per buffer line in buffer order, then the
footer line; the display line at index row is line[0..col] ++ "|" ++ line[col..] and
every other display line is its buffer line unchanged.  displayText is a function of the
object state to the printed lines: it assigns no member. -/
theorem displayText_spec (s : MultiLineTextEditor) (h : Valid s) :
    ∃ body, displayText s = some (header :: body ++ [footer]) ∧
      body.length = s.lines.length ∧
      body[s.cursorRow.toNat]? = some
        ((curLine s).take s.cursorCol.toNat ++ ['|'] ++ (curLine s).drop s.cursorCol.toNat) ∧
      ∀ i : Nat, i ≠ s.cursorRow.toNat → body[i]? = s.lines[i]? := by
  obtain ⟨out, hout⟩ := displayText_isSome s h
  obtain ⟨_, ⟨hr0, hr1⟩, hc0, _⟩ := h
  simp only [displayText, Option.bind_eq_bind, Option.pure_def, Option.bind_eq_some,
    Option.some.injEq] at hout
  obtain ⟨body, hbody, _⟩ := hout
  obtain ⟨hlen, hrows⟩ := displayRows_spec s.cursorRow s.cursorCol hc0 s.lines 0 body hbody
  refine ⟨body, by simp [displayText, hbody], hlen, ?_, ?_⟩
  · rw [hrows s.cursorRow.toNat (curLine s) (getElem?_getD _ _ (by omega))]
    have : (0 : Int) + ((s.cursorRow.toNat : Nat) : Int) = s.cursorRow := by omega
    simp only [this, if_true]
  · intro i hi
    cases hl : s.lines[i]? with
    | none =>
      rw [List.getElem?_eq_none_iff] at hl ⊢
      omega
    | some l =>
      rw [hrows i l hl]
      have : ¬ ((0 : Int) + (i : Int) = s.cursorRow) := by omega
      simp only [this, if_false]

/-- The rendering of the buffer "ab", "c" with the cursor at (0,1). -/
theorem displayText_spec_witness :
    Valid (MultiLineTextEditor.mk ["ab".toList, "c".toList] 0 1 [] []) ∧
    displayText (MultiLineTextEditor.mk ["ab".toList, "c".toList] 0 1 [] []) =
      some [header, "a|b".toList, "c".toList, footer] ∧
    ∃ body, displayText (MultiLineTextEditor.mk ["ab".toList, "c".toList] 0 1 [] []) =
        some (header :: body ++ [footer]) ∧ body.length = 2 ∧
      body[0]? = some "a|b".toList ∧ ∀ i : Nat, i ≠ 0 → body[i]? = ["ab".toList, "c".toList][i]? :=
  ⟨by decide, by decide,
    displayText_spec (MultiLineTextEditor.mk ["ab".toList, "c".toList] 0 1 [] []) (by decide)⟩


/-- Claim C18, the code at a reachable input.  On the freshly constructed editor
insertMultipleLines(["X"]) steps `it` to the past-the-end position in the one pass of its
loop and inserts "X" there; `it` stays past the end, and the step `it = next(it)` after
the loop starts from the past-the-end position, at index 2 of a list of 2 lines: the call
has no defined result, where the claim has every step start from an existing line. -/
theorem insertMultipleLines_steps_past_the_end :
    getIterator init init.cursorRow = some 0 ∧
    insertLoop ["X".toList] [[]] 0 0 = some ([[], "X".toList], 2, 1) ∧
    CppList.next [[], "X".toList] 2 = none ∧
    insertMultipleLines ["X".toList] init = none ∧
    run [Op.insertMultipleLines ["X".toList]] init = none := by
  decide

/-- Claim C19, as stated, fails beyond the range of `int`: on the state reached by
insert("c") at the start of a line of 2^31 characters, with the cursor at (0,1) and the
snapshot of that line on the undo stack, which satisfies the invariant, undo clamps the
column to min(1, (int)2^31), a negative value, where the claim has min(1, 2^31) = 1, and
the call does not return: `displayText` throws on the negative column. -/
theorem undo_onto_long_line_throws :
    Inv (MultiLineTextEditor.mk ['c' :: List.replicate 2147483648 'a'] 0 1
      [[List.replicate 2147483648 'a']] []) ∧
    undo (MultiLineTextEditor.mk ['c' :: List.replicate 2147483648 'a'] 0 1
      [[List.replicate 2147483648 'a']] []) = none := by
  refine ⟨inv_one_snapshot _ _ _ (by decide) ?_,
    undo_throws _ (List.replicate 2147483648 'a') [] rfl ?_ ?_⟩
  · exact one_le_length_cons _ _
  · rw [List.length_replicate]
  · rw [List.length_replicate]
    decide

/-- Claim C19, amended: on every state satisfying the invariant with cursor (row, col),
when the undo stack holds a snapshot whose sizes are values of `int` (at most INT_MAX
lines, each of at most INT_MAX characters), undo completes, the buffer is that snapshot,
the row is min(row, number of its lines - 1) and the column is min(col, length of its line
at the new row); and redo does the same with the snapshot on top of the redo stack.  The
cursor is computed from the old cursor and the restored buffer; no cursor is stored. -/
theorem undo_redo_clamp_cursor (s : MultiLineTextEditor) (h : Inv s) :
    (∀ top rest, s.undoStack = top :: rest → IntSized top →
      ∃ s1 out, undo s = some (s1, out) ∧ s1.lines = top ∧
        s1.cursorRow = min s.cursorRow ((top.length : Int) - 1) ∧
        ∃ l, top[s1.cursorRow.toNat]? = some l ∧
          s1.cursorCol = min s.cursorCol (l.length : Int)) ∧
    (∀ top rest, s.redoStack = top :: rest → IntSized top →
      ∃ s1 out, redo s = some (s1, out) ∧ s1.lines = top ∧
        s1.cursorRow = min s.cursorRow ((top.length : Int) - 1) ∧
        ∃ l, top[s1.cursorRow.toNat]? = some l ∧
          s1.cursorCol = min s.cursorCol (l.length : Int)) := by
  obtain ⟨hv, hu, hr⟩ := h
  constructor
  · intro top rest hst hs
    have htop : 1 ≤ top.length := hu top (by simp [hst])
    obtain ⟨s1, out, h1, hv1, hl, _, _, hrow, hcol⟩ :=
      undo_cons s top rest hst htop hs hv.2.1.1 hv.2.2.1
    refine ⟨s1, out, h1, hl, hrow, _, getElem?_getD top s1.cursorRow.toNat ?_, hcol⟩
    have := hv.2.1.1
    omega
  · intro top rest hst hs
    have htop : 1 ≤ top.length := hr top (by simp [hst])
    obtain ⟨s1, out, h1, hv1, hl, _, _, hrow, hcol⟩ :=
      redo_cons s top rest hst htop hs hv.2.1.1 hv.2.2.1
    refine ⟨s1, out, h1, hl, hrow, _, getElem?_getD top s1.cursorRow.toNat ?_, hcol⟩
    have := hv.2.1.1
    omega

/-- The example of the claim: on the buffer "hello" with the cursor at (0,0), insert("ab")
and then undo give back the buffer "hello" and leave the cursor at (0,2), not at (0,0). -/
theorem undo_redo_clamp_cursor_witness :
    ∃ s1 o1, insert "ab".toList (MultiLineTextEditor.mk ["hello".toList] 0 0 [[[]]] []) =
        some (s1, o1) ∧ Inv s1 ∧
      ∃ s2 o2, undo s1 = some (s2, o2) ∧ s2.lines = ["hello".toList] ∧
        s2.cursorRow = 0 ∧ s2.cursorCol = 2 ∧
        (s2.cursorRow, s2.cursorCol) ≠ ((0 : Int), (0 : Int)) := by
  have h1 : insert "ab".toList (MultiLineTextEditor.mk ["hello".toList] 0 0 [[[]]] []) =
      some (MultiLineTextEditor.mk ["abhello".toList] 0 2 [["hello".toList], [[]]] [],
        [header, "ab|hello".toList, footer]) := by decide
  refine ⟨_, _, h1, by decide, ?_⟩
  obtain ⟨s2, o2, h2, hl, hrow, l, hl2, hcol⟩ :=
    (undo_redo_clamp_cursor
      (MultiLineTextEditor.mk ["abhello".toList] 0 2 [["hello".toList], [[]]] [])
      (by decide)).1 ["hello".toList] [[[]]] rfl (by decide)
  have hrow0 : s2.cursorRow = 0 := by rw [hrow]; decide
  rw [hrow0] at hl2
  have hl3 : l = "hello".toList := by
    have : (["hello".toList] : List Line)[0]? = some l := hl2
    simpa using this.symm
  have hcol2 : s2.cursorCol = 2 := by rw [hcol, hl3]; decide
  refine ⟨s2, o2, h2, hl, hrow0, hcol2, ?_⟩
  rw [hrow0, hcol2]
  decide


/-- A state rebuilt from its own buffer and stacks and an equal cursor is the state. -/
theorem mk_eq_self (s : MultiLineTextEditor) (r c : Int) (hr : r = s.cursorRow)
    (hc : c = s.cursorCol) :
    MultiLineTextEditor.mk s.lines r c s.undoStack s.redoStack = s := by
  subst hr hc
  rfl

/-- Claim C20, as stated, fails beyond the range of `int`.  On the valid state with a first
line of 2^31 + 1 characters and the cursor at (1,0), which is not (0,0), moveLeft does not
return: it sets the column to the length converted to `int`, a negative value, and
`displayText` throws.  On the valid state with one line of 2^31 characters and the cursor
at (0, INT_MAX), which is not the end of the line, moveRight has no defined result: its
`cursorCol++` overflows.  Neither round trip gives back the state. -/
theorem moveLeft_moveRight_round_trip_fails :
    (Valid (MultiLineTextEditor.mk [List.replicate 2147483649 'a', []] 1 0 [] []) ∧
      moveLeft (MultiLineTextEditor.mk [List.replicate 2147483649 'a', []] 1 0 [] []) = none) ∧
    (Valid (MultiLineTextEditor.mk [List.replicate 2147483648 'a'] 0 2147483647 [] []) ∧
      (2147483647 : Int) < ((List.replicate 2147483648 'a').length : Int) ∧
      moveRight (MultiLineTextEditor.mk [List.replicate 2147483648 'a'] 0 2147483647 [] []) =
        none) := by
  have hlen : ((List.replicate 2147483648 'a').length : Int) = 2147483648 := by
    rw [List.length_replicate]; rfl
  have hv1 := valid_second_line (List.replicate 2147483649 'a') [] [] []
  have hv2 : Valid (MultiLineTextEditor.mk [List.replicate 2147483648 'a'] 0 2147483647 [] []) :=
    valid_one_line _ _ _ _ (by decide) (by rw [hlen]; decide)
  refine ⟨⟨hv1, moveLeft_throws _ hv1 rfl (by decide) ?_ ?_⟩, hv2, by rw [hlen]; decide, ?_⟩
  · show 2147483648 ≤ (List.replicate 2147483649 'a').length
    rw [List.length_replicate]
    decide
  · show (List.replicate 2147483649 'a').length ≤ 4294967295
    rw [List.length_replicate]
    decide
  · refine moveRight_overflows _ hv2 rfl ?_
    show (2147483647 : Int) < ((List.replicate 2147483648 'a').length : Int)
    rw [hlen]
    decide

/-- Claim C20, amended: on every valid state whose lines all have at most INT_MAX
characters and whose cursor is not (0,0), moveLeft completes and
moveRight after it completes and returns the very state moveLeft was called in; on every
valid state whose cursor is not at the end of the last line, moveRight completes and
moveLeft after it returns the very state moveRight was called in (buffer, cursor and both
stacks), also when the step wraps across a line boundary. -/
theorem moveLeft_moveRight_inverse (s : MultiLineTextEditor) (h : Valid s)
    (hb : ∀ l ∈ s.lines, l.length ≤ 2147483647) :
    (¬ (s.cursorRow = 0 ∧ s.cursorCol = 0) →
      ∃ s1 o1 o2, moveLeft s = some (s1, o1) ∧ moveRight s1 = some (s, o2)) ∧
    (¬ (s.cursorRow + 1 = (s.lines.length : Int) ∧ s.cursorCol = ((curLine s).length : Int)) →
      ∃ s1 o1 o2, moveRight s = some (s1, o1) ∧ moveLeft s1 = some (s, o2)) := by
  obtain ⟨hl, ⟨hr0, hr1⟩, hc0, hc1⟩ := h
  have hv : Valid s := ⟨hl, ⟨hr0, hr1⟩, hc0, hc1⟩
  simp only [curLine] at hc1
  constructor
  · intro hne
    obtain ⟨o1, h1, hv1⟩ := moveLeft_eq s hv hb
    by_cases hc : s.cursorCol > 0
    · simp only [hc, if_true] at h1 hv1
      obtain ⟨o2, h2, _⟩ := moveRight_eq _ hv1 hb
      have hlt : s.cursorCol - 1 < ((s.lines.getD s.cursorRow.toNat []).length : Int) := by omega
      simp only [curLine, hlt, if_true] at h2
      rw [mk_eq_self s s.cursorRow (s.cursorCol - 1 + 1) rfl (by omega)] at h2
      exact ⟨_, o1, o2, h1, h2⟩
    · have hr : s.cursorRow > 0 := by omega
      simp only [hc, hr, if_true, if_false] at h1 hv1
      obtain ⟨o2, h2, _⟩ := moveRight_eq _ hv1 hb
      have hlt : s.cursorRow - 1 < (s.lines.length : Int) - 1 := by omega
      simp only [curLine, lt_self_iff_false, if_false, hlt, if_true] at h2
      rw [mk_eq_self s (s.cursorRow - 1 + 1) 0 (by omega) (by omega)] at h2
      exact ⟨_, o1, o2, h1, h2⟩
  · intro hne
    simp only [curLine] at hne
    obtain ⟨o1, h1, hv1⟩ := moveRight_eq s hv hb
    simp only [curLine] at h1 hv1
    by_cases hc : s.cursorCol < ((s.lines.getD s.cursorRow.toNat []).length : Int)
    · simp only [hc, if_true] at h1 hv1
      obtain ⟨o2, h2, _⟩ := moveLeft_eq _ hv1 hb
      have hgt : s.cursorCol + 1 > 0 := by omega
      simp only [hgt, if_true] at h2
      rw [mk_eq_self s s.cursorRow (s.cursorCol + 1 - 1) rfl (by omega)] at h2
      exact ⟨_, o1, o2, h1, h2⟩
    · have hr : s.cursorRow < (s.lines.length : Int) - 1 := by omega
      simp only [hc, hr, if_true, if_false] at h1 hv1
      obtain ⟨o2, h2, _⟩ := moveLeft_eq _ hv1 hb
      have hgt : s.cursorRow + 1 > 0 := by omega
      have hsub : s.cursorRow + 1 - 1 = s.cursorRow := by omega
      simp only [gt_iff_lt, lt_self_iff_false, if_false, hgt, if_true, hsub] at h2
      rw [mk_eq_self s s.cursorRow ((s.lines.getD s.cursorRow.toNat []).length : Int) rfl
        (by omega)] at h2
      exact ⟨_, o1, o2, h1, h2⟩

/-- On the buffer "ab", "c": from (1,0) moveLeft wraps to (0,2) and moveRight wraps back;
from (0,2) moveRight wraps to (1,0) and moveLeft wraps back. -/
theorem moveLeft_moveRight_inverse_witness :
    Valid (MultiLineTextEditor.mk ["ab".toList, "c".toList] 1 0 [[[]]] []) ∧
    (∃ s1 o1 o2, moveLeft (MultiLineTextEditor.mk ["ab".toList, "c".toList] 1 0 [[[]]] []) =
        some (s1, o1) ∧
      moveRight s1 = some (MultiLineTextEditor.mk ["ab".toList, "c".toList] 1 0 [[[]]] [], o2)) ∧
    (∃ s1 o1 o2, moveRight (MultiLineTextEditor.mk ["ab".toList, "c".toList] 0 2 [[[]]] []) =
        some (s1, o1) ∧
      moveLeft s1 = some (MultiLineTextEditor.mk ["ab".toList, "c".toList] 0 2 [[[]]] [], o2)) :=
  ⟨by decide,
    (moveLeft_moveRight_inverse (MultiLineTextEditor.mk ["ab".toList, "c".toList] 1 0 [[[]]] [])
      (by decide) (by decide)).1 (by decide),
    (moveLeft_moveRight_inverse (MultiLineTextEditor.mk ["ab".toList, "c".toList] 0 2 [[[]]] [])
      (by decide) (by decide)).2 (by decide)⟩

end MultiLineTextEditor
